import Mathlib

/-!
Verification of the path-identity and reconciliation engine of the
video-library-pipeline repository (src/py).  The Python sources are shallowly
embedded: SQLite tables become Lean lists of row structures, SQL statements
become the corresponding list operations, JSON records become structures, and
library primitives that the claims do not inspect (uuid.uuid5 over the fixed
namespace, hashlib.sha1 hex digests, the JSON-level human_reviewed lookup of
`_json_obj(...).get("human_reviewed")`) are abstracted as function parameters.
Wall-clock reads (`now_iso()`) are modelled by a per-run timestamp parameter.
-/

/- ===== Shared schema (mediaops_schema.py) ===== -/

/-- Row of the `paths` table: path_id TEXT PRIMARY KEY, path TEXT UNIQUE NOT
NULL, nullable drive/dir/name/ext, created_at, updated_at. -/
structure PathRow where
  path_id : String
  path : String
  drive : Option String
  dir : Option String
  name : Option String
  ext : Option String
  created_at : String
  updated_at : String
deriving Repr, DecidableEq

/-- Row of the `path_metadata` table: path_id PRIMARY KEY, source, data_json
(JSON as TEXT), updated_at. -/
structure MetadataRow where
  path_id : String
  source : String
  data_json : String
  updated_at : String
deriving Repr, DecidableEq

/-- Row of the `observations` table: unique on (run_id, path_id). -/
structure ObservationRow where
  run_id : String
  path_id : String
  size_bytes : Int
  mtime_utc : Option String
  type : Option String
  name_flags : Option String
deriving Repr, DecidableEq

/-- Row of the `file_paths` table: unique on (file_id, path_id). -/
structure FilePathRow where
  file_id : String
  path_id : String
  is_current : Int
  first_seen_run_id : Option String
  last_seen_run_id : Option String
deriving Repr, DecidableEq

/-- Row of the `path_tags` table: unique on (path_id, tag_id, source). -/
structure PathTagRow where
  path_id : String
  tag_id : Int
  source : String
  updated_at : String
deriving Repr, DecidableEq

/-- The structured content of an event's detail_json, as built by
update_db_paths_from_move_apply.main (json.dumps of the event_detail dict). -/
structure EventDetail where
  src : Option String
  dst : String
  source : String
  db_update : Option String
  db_collision_with_path_id : Option String
deriving Repr, DecidableEq

/-- Row of the `events` table. -/
structure EventRow where
  run_id : String
  ts : String
  kind : String
  src_path_id : Option String
  dst_path_id : Option String
  detail : EventDetail
  ok : Int
  error : Option String
deriving Repr, DecidableEq

/-- Row of the `runs` table. -/
structure RunRow where
  run_id : String
  kind : String
  target_root : Option String
  started_at : String
  finished_at : Option String
  tool_version : Option String
  notes : Option String
deriving Repr, DecidableEq

/-- The mediaops.sqlite store: one list per table. -/
structure Store where
  paths : List PathRow
  path_metadata : List MetadataRow
  observations : List ObservationRow
  file_paths : List FilePathRow
  path_tags : List PathTagRow
  events : List EventRow
  runs : List RunRow
deriving Repr, DecidableEq

/- ===== Python string helpers shared by several scripts ===== -/

/-- Python `p.replace("/", "\\")` (single-character pattern, so a per-character
map). -/
def replaceSlashes (p : String) : String :=
  String.mk (p.toList.map fun c => if c == '/' then '\\' else c)

/-- Python `s.split(sep)` for a single-character separator: `"".split(sep)` is
`[""]`, and the number of pieces is one more than the number of separators. -/
def splitOnChar (sep : Char) : List Char → List (List Char)
  | [] => [[]]
  | c :: rest =>
    let r := splitOnChar sep rest
    if c == sep then [] :: r
    else
      match r with
      | [] => [[c]]
      | h :: t => (c :: h) :: t

/-- Python `"\\".join(parts)`. -/
def joinBS : List String → String
  | [] => ""
  | [s] => s
  | s :: rest => s ++ "\\" ++ joinBS rest

/-- Python truthiness of an optional string: None and "" are falsy. -/
def falsyStr : Option String → Bool
  | none => true
  | some s => s == ""

/-- Python `<` on strings: code-point lexicographic comparison of the
character sequences. -/
def charsLt : List Char → List Char → Bool
  | [], [] => false
  | [], _ :: _ => true
  | _ :: _, [] => false
  | a :: as, b :: bs =>
    if a.toNat < b.toNat then true
    else if b.toNat < a.toNat then false
    else charsLt as bs

/-- Python `a < b` on strings. -/
def strLtb (a b : String) : Bool := charsLt a.toList b.toList

/-- Python `sep.join(parts)` for a string separator. -/
def joinWith (sep : String) : List String → String
  | [] => ""
  | [s] => s
  | s :: rest => s ++ sep ++ joinWith sep rest

namespace UpdateDb

/-- split_win from update_db_paths_from_move_apply.py: unify separators to
backslashes, then dir is the join of all but the last backslash piece and name
is the last piece. -/
def split_win (p : String) : String × String × String :=
  let q := replaceSlashes p
  let parts := (splitOnChar '\\' q.toList).map fun l => String.mk l
  (q, joinBS parts.dropLast, (parts.getLast?).getD "")

/-- One JSON record of the applied move_apply JSONL, holding the fields the
engine reads.  `ok` is the truthiness of the record's ok field; absent string
fields are `none`. -/
structure MoveRec where
  op : Option String
  ok : Bool
  path_id : Option String
  src : Option String
  dst : Option String
  ts : Option String
deriving Repr, DecidableEq

/-- A parsed element of move_rows (lines 196-209 of
update_db_paths_from_move_apply.py). -/
structure MoveRow where
  path_id : String
  src : Option String
  dst : String
  dir : String
  name : String
  ts : String
deriving Repr, DecidableEq

/-- The intake filter of main (lines 198-209): keep only records with
op == "move", truthy ok, and truthy path_id and dst; split the destination;
default ts to now_iso() (the run timestamp parameter tsRun). -/
def parseMoveRows (tsRun : String) (recs : List MoveRec) : List MoveRow :=
  recs.filterMap fun rec =>
    if rec.op ≠ some "move" then none
    else if rec.ok = false then none
    else if falsyStr rec.path_id || falsyStr rec.dst then none
    else
      let sw := split_win (rec.dst.getD "")
      some { path_id := rec.path_id.getD "", src := rec.src, dst := sw.1,
             dir := sw.2.1, name := sw.2.2,
             ts := if falsyStr rec.ts then tsRun else rec.ts.getD "" }

/-- Rank of an optional path_metadata row (_metadata_rank): missing rows rank
(-1, ""), present rows ((1 if human_reviewed else 0), updated_at).  The
human_reviewed extraction `bool(_json_obj(data_json).get("human_reviewed"))`
is abstracted as the parameter hr. -/
def metadataRank (hr : String → Bool) : Option MetadataRow → Int × String
  | none => (-1, "")
  | some r => (if hr r.data_json then 1 else 0, r.updated_at)

/-- Python tuple comparison `x > y` on (int, str) pairs: lexicographic. -/
def rankGtb (x y : Int × String) : Bool :=
  decide (y.1 < x.1) || (x.1 == y.1 && strLtb y.2 x.2)

/-- _merge_path_metadata: move the source metadata row to the destination id
when the destination has none; when both exist, keep the higher-ranked row's
values in the destination slot and always delete the source row.  Returns the
new table and the action string. -/
def mergePathMetadata (hr : String → Bool) (pm : List MetadataRow)
    (src_path_id dst_path_id : String) : List MetadataRow × String :=
  match pm.find? fun r => r.path_id == src_path_id with
  | none => (pm, "none")
  | some srcRow =>
    match pm.find? fun r => r.path_id == dst_path_id with
    | none =>
      (pm.map fun r =>
        if r.path_id == src_path_id then { r with path_id := dst_path_id } else r,
       "moved_src_to_dst")
    | some dstRow =>
      if (if rankGtb (metadataRank hr (some srcRow)) (metadataRank hr (some dstRow))
          then srcRow else dstRow).path_id == src_path_id then
        ((pm.map fun r =>
            if r.path_id == dst_path_id then
              { r with source := srcRow.source, data_json := srcRow.data_json,
                       updated_at := srcRow.updated_at }
            else r).filter fun r => r.path_id != src_path_id,
         "src_overwrote_dst")
      else
        (pm.filter fun r => r.path_id != src_path_id, "kept_dst")

/-- The ON CONFLICT(run_id, path_id) DO UPDATE upsert used by
_repoint_observations. -/
def upsertObservation (obs : List ObservationRow) (r : ObservationRow) :
    List ObservationRow :=
  if obs.any fun o => o.run_id == r.run_id && o.path_id == r.path_id then
    obs.map fun o =>
      if o.run_id == r.run_id && o.path_id == r.path_id then
        { o with size_bytes := r.size_bytes, mtime_utc := r.mtime_utc,
                 type := r.type, name_flags := r.name_flags }
      else o
  else obs ++ [r]

/-- _repoint_observations: upsert each source-id row under the destination id,
then delete the source-id rows; returns the new table and the repointed
count. -/
def repointObservations (obs : List ObservationRow) (src dst : String) :
    List ObservationRow × Nat :=
  let rows := obs.filter fun o => o.path_id == src
  if rows.isEmpty then (obs, 0)
  else
    let obs2 := rows.foldl (fun acc r => upsertObservation acc { r with path_id := dst }) obs
    (obs2.filter fun o => o.path_id != src, rows.length)

/-- The ON CONFLICT(file_id, path_id) DO UPDATE upsert used by
_repoint_file_paths: MAX of is_current, COALESCE(existing.first_seen,
excluded.first_seen), COALESCE(excluded.last_seen, existing.last_seen). -/
def upsertFilePath (fps : List FilePathRow) (r : FilePathRow) : List FilePathRow :=
  if fps.any fun f => f.file_id == r.file_id && f.path_id == r.path_id then
    fps.map fun f =>
      if f.file_id == r.file_id && f.path_id == r.path_id then
        { f with is_current := max f.is_current r.is_current,
                 first_seen_run_id := f.first_seen_run_id.orElse fun _ => r.first_seen_run_id,
                 last_seen_run_id := r.last_seen_run_id.orElse fun _ => f.last_seen_run_id }
      else f
  else fps ++ [r]

/-- _repoint_file_paths. -/
def repointFilePaths (fps : List FilePathRow) (src dst : String) :
    List FilePathRow × Nat :=
  let rows := fps.filter fun f => f.path_id == src
  if rows.isEmpty then (fps, 0)
  else
    let fps2 := rows.foldl (fun acc r => upsertFilePath acc { r with path_id := dst }) fps
    (fps2.filter fun f => f.path_id != src, rows.length)

/-- The ON CONFLICT(path_id, tag_id, source) DO UPDATE upsert used by
_repoint_path_tags: keep the larger updated_at. -/
def upsertPathTag (tags : List PathTagRow) (r : PathTagRow) : List PathTagRow :=
  if tags.any fun t => t.path_id == r.path_id && t.tag_id == r.tag_id && t.source == r.source then
    tags.map fun t =>
      if t.path_id == r.path_id && t.tag_id == r.tag_id && t.source == r.source then
        { t with updated_at := if strLtb t.updated_at r.updated_at then r.updated_at else t.updated_at }
      else t
  else tags ++ [r]

/-- _repoint_path_tags. -/
def repointPathTags (tags : List PathTagRow) (src dst : String) :
    List PathTagRow × Nat :=
  let rows := tags.filter fun t => t.path_id == src
  if rows.isEmpty then (tags, 0)
  else
    let tags2 := rows.foldl (fun acc r => upsertPathTag acc { r with path_id := dst }) tags
    (tags2.filter fun t => t.path_id != src, rows.length)

/-- _repoint_events: rewrite src_path_id then dst_path_id references; the two
returned counts are the respective UPDATE rowcounts. -/
def repointEvents (evs : List EventRow) (src dst : String) :
    List EventRow × Nat × Nat :=
  let n1 := (evs.filter fun e => e.src_path_id == some src).length
  let evs1 := evs.map fun e =>
    if e.src_path_id == some src then { e with src_path_id := some dst } else e
  let n2 := (evs1.filter fun e => e.dst_path_id == some src).length
  let evs2 := evs1.map fun e =>
    if e.dst_path_id == some src then { e with dst_path_id := some dst } else e
  (evs2, n1, n2)

/-- The db_merge summary dict returned by _merge_path_collision. -/
structure MergeInfo where
  observations_repointed : Nat
  path_metadata_action : String
  file_paths_repointed : Nat
  path_tags_repointed : Nat
  events_repointed_src : Nat
  events_repointed_dst : Nat
deriving Repr, DecidableEq

/-- The UPDATE the merge applies to the destination paths row (the SQL UPDATE
paths SET path, dir, name, updated_at WHERE path_id = destination). -/
def mergeUpd (dst_path_id dst_full dst_dir dst_name ts_now : String)
    (p : PathRow) : PathRow :=
  if p.path_id == dst_path_id then
    { p with path := dst_full, dir := some dst_dir, name := some dst_name,
             updated_at := ts_now }
  else p

/-- _merge_path_collision: repoint every dependent table from the source id to
the destination id, update the destination paths row to the new location, and
delete the source paths row. -/
def mergePathCollision (hr : String → Bool) (st : Store)
    (src_path_id dst_path_id dst_full dst_dir dst_name ts_now : String) :
    Store × MergeInfo :=
  let ro := repointObservations st.observations src_path_id dst_path_id
  let rm := mergePathMetadata hr st.path_metadata src_path_id dst_path_id
  let rf := repointFilePaths st.file_paths src_path_id dst_path_id
  let rt := repointPathTags st.path_tags src_path_id dst_path_id
  let re := repointEvents st.events src_path_id dst_path_id
  let paths2 := st.paths.map (mergeUpd dst_path_id dst_full dst_dir dst_name ts_now)
  let paths3 := paths2.filter fun p => p.path_id != src_path_id
  ({ st with observations := ro.1, path_metadata := rm.1, file_paths := rf.1,
             path_tags := rt.1, events := re.1, paths := paths3 },
   { observations_repointed := ro.2, path_metadata_action := rm.2,
     file_paths_repointed := rf.2, path_tags_repointed := rt.2,
     events_repointed_src := re.2.1, events_repointed_dst := re.2.2 })

/-- The four loop counters of main. -/
structure Counters where
  updated : Nat
  merged : Nat
  already : Nat
  missing : Nat
deriving Repr, DecidableEq

/-- An events-table tuple as appended to rows_events by main: ok is the
literal 1 and error the literal None. -/
def mkEvent (runId ts eventKind : String) (pid : Option String)
    (detail : EventDetail) : EventRow :=
  { run_id := runId, ts := ts, kind := eventKind, src_path_id := pid,
    dst_path_id := none, detail := detail, ok := 1, error := none }

/-- One iteration of the apply loop of main (lines 268-318): look up the
source row by path_id and the destination row by path string, then take the
missing / already-applied / simple-update / collision-merge branch, and append
exactly one event tuple to rows_events. -/
def stepRowCore (hr : String → Bool) (tsRun runId eventKind detailSource : String)
    (st : Store) (cnt : Counters) (evs : List EventRow) (row : MoveRow) :
    Store × Counters × List EventRow :=
  match st.paths.find? fun p => p.path_id == row.path_id with
  | none =>
    match st.paths.find? fun p => p.path == row.dst with
    | some d =>
      (st, { cnt with already := cnt.already + 1 },
       evs ++ [mkEvent runId row.ts eventKind (some d.path_id)
         { src := row.src, dst := row.dst, source := detailSource,
           db_update := some "already_applied_src_path_missing_dst_exists",
           db_collision_with_path_id := none }])
    | none =>
      (st, { cnt with missing := cnt.missing + 1 },
       evs ++ [mkEvent runId row.ts eventKind none
         { src := row.src, dst := row.dst, source := detailSource,
           db_update := some "src_path_id_missing_and_dst_not_found",
           db_collision_with_path_id := none }])
  | some _ =>
    match st.paths.find? fun p => p.path == row.dst with
    | none =>
      ({ st with paths := st.paths.map fun p =>
           if p.path_id == row.path_id then
             { p with path := row.dst, dir := some row.dir, name := some row.name,
                      updated_at := tsRun }
           else p },
       { cnt with updated := cnt.updated + 1 },
       evs ++ [mkEvent runId row.ts eventKind (some row.path_id)
         { src := row.src, dst := row.dst, source := detailSource,
           db_update := some "updated_path_row",
           db_collision_with_path_id := none }])
    | some d =>
      if d.path_id == row.path_id then
        ({ st with paths := st.paths.map fun p =>
             if p.path_id == row.path_id then
               { p with path := row.dst, dir := some row.dir, name := some row.name,
                        updated_at := tsRun }
             else p },
         { cnt with updated := cnt.updated + 1 },
         evs ++ [mkEvent runId row.ts eventKind (some row.path_id)
           { src := row.src, dst := row.dst, source := detailSource,
             db_update := some "already_at_destination_path",
             db_collision_with_path_id := none }])
      else
        ((mergePathCollision hr st row.path_id d.path_id row.dst row.dir row.name tsRun).1,
         { cnt with merged := cnt.merged + 1 },
         evs ++ [mkEvent runId row.ts eventKind (some d.path_id)
           { src := row.src, dst := row.dst, source := detailSource,
             db_update := some "merged_into_existing_destination_path_row",
             db_collision_with_path_id := some d.path_id }])

/-- One iteration of the apply loop packaged over the fold accumulator. -/
def stepRow (hr : String → Bool) (tsRun runId eventKind detailSource : String)
    (acc : Store × Counters × List EventRow) (row : MoveRow) :
    Store × Counters × List EventRow :=
  stepRowCore hr tsRun runId eventKind detailSource acc.1 acc.2.1 acc.2.2 row

/-- Options of an apply run (argparse values after their `or` defaults). -/
structure RunOpts where
  run_kind : String
  event_kind : String
  detail_source : String
  notes : Option String
  applied_basename : String
deriving Repr, DecidableEq

/-- Python `str(x or default)` on a string argument. -/
def orDefault (x default : String) : String := if x == "" then default else x

/-- The INSERT INTO runs executed at the start of the batch. -/
def insertRunRow (st : Store) (runId kind started notes : String) : Store :=
  { st with runs := st.runs ++
      [{ run_id := runId, kind := kind, target_root := none, started_at := started,
         finished_at := none, tool_version := none, notes := some notes }] }

/-- The notes value of the run row (args.notes or the generated default). -/
def runNotes (opts : RunOpts) : String :=
  match opts.notes with
  | some s =>
    if s == "" then
      orDefault opts.run_kind "apply" ++ " update_db_paths_from_move_apply " ++ opts.applied_basename
    else s
  | none =>
    orDefault opts.run_kind "apply" ++ " update_db_paths_from_move_apply " ++ opts.applied_basename

/-- End of the batch body: insert rows_events (when non-empty) and set the run
row's finished_at. -/
def finalizeRun (st : Store) (runId tsRun : String) (evs : List EventRow) : Store :=
  let st1 := if evs.isEmpty then st else { st with events := st.events ++ evs }
  { st1 with runs := st1.runs.map fun r =>
      if r.run_id == runId then { r with finished_at := some tsRun } else r }

/-- The summary counters printed by main. -/
structure Summary where
  updated : Nat
  merged_conflicts : Nat
  already_applied : Nat
  missing_src_path_rows : Nat
  events : Nat
deriving Repr, DecidableEq

/-- A full successful apply run of main on a parsed artifact: intake filter,
run row insert, the per-row loop, events insert and run close.  now_iso() is
modelled by tsRun and uuid4 by runId. -/
def applyRun (hr : String → Bool) (tsRun runId : String) (opts : RunOpts)
    (st : Store) (recs : List MoveRec) : Store × Summary :=
  let moveRows := parseMoveRows tsRun recs
  let st0 := insertRunRow st runId (orDefault opts.run_kind "apply") tsRun (runNotes opts)
  let out := moveRows.foldl
    (stepRow hr tsRun runId (orDefault opts.event_kind "move")
      (orDefault opts.detail_source "apply_move_plan.ps1"))
    (st0, { updated := 0, merged := 0, already := 0, missing := 0 }, [])
  (finalizeRun out.1 runId tsRun out.2.2,
   { updated := out.2.1.updated, merged_conflicts := out.2.1.merged,
     already_applied := out.2.1.already, missing_src_path_rows := out.2.1.missing,
     events := out.2.2.length })

/-- Transaction trace events of one apply batch.  `beginTx` stands for
begin_immediate (modelled from the spec: begin_immediate opens the batch
transaction with an immediate/exclusive write lock; its body is imported from
mediaops_schema and is not under src/). -/
inductive TraceEv where
  | beginTx
  | row (i : Nat)
  | commitTx
  | rollbackTx
deriving Repr, DecidableEq

/-- The loop of main run under sqlite fault injection: the environment may
raise at any row (faults i = true means an unhandled sqlite exception is
raised while processing row i); an exception aborts the body with the index
of the offending row. -/
def txGo (hr : String → Bool) (tsRun runId eventKind detailSource : String)
    (faults : Nat → Bool) :
    Nat → (Store × Counters × List EventRow) → List MoveRow →
    Except Nat (Store × Counters × List EventRow)
  | _, acc, [] => .ok acc
  | i, acc, r :: rs =>
    if faults i then .error i
    else txGo hr tsRun runId eventKind detailSource faults (i + 1)
      (stepRow hr tsRun runId eventKind detailSource acc r) rs

/-- The whole apply batch of main with its try / commit / except rollback;
raise structure: on success the body's store is committed, on an unhandled
exception the transaction is rolled back (the store reverts to its pre-batch
state) and the error is re-raised to the caller.  The returned trace records
that the write transaction is opened before any row is processed. -/
def applyRunTx (hr : String → Bool) (tsRun runId : String) (opts : RunOpts)
    (faults : Nat → Bool) (st : Store) (recs : List MoveRec) :
    Store × Option Nat × List TraceEv :=
  let moveRows := parseMoveRows tsRun recs
  let st0 := insertRunRow st runId (orDefault opts.run_kind "apply") tsRun (runNotes opts)
  match txGo hr tsRun runId (orDefault opts.event_kind "move")
      (orDefault opts.detail_source "apply_move_plan.ps1") faults 0
      (st0, { updated := 0, merged := 0, already := 0, missing := 0 }, []) moveRows with
  | .ok out =>
    (finalizeRun out.1 runId tsRun out.2.2, none,
     TraceEv.beginTx :: ((List.range moveRows.length).map TraceEv.row ++ [TraceEv.commitTx]))
  | .error i =>
    (st, some i,
     TraceEv.beginTx :: ((List.range i).map TraceEv.row ++ [TraceEv.rollbackTx]))

end UpdateDb

namespace Backfill

/-- normalize_win_for_id from backfill_moved_files.py: unify separators to
backslashes and lower-case (str.lower modelled on ASCII via Char.toLower). -/
def normalize_win_for_id (p : String) : String :=
  String.mk ((replaceSlashes p).toList.map Char.toLower)

/-- path_id_for from backfill_moved_files.py.  The parameter u abstracts
`str(uuid.uuid5(PATH_NAMESPACE, s))` — uuid-v5 over the fixed namespace
constant f4f67a6f-90c6-4ee4-9c1a-2c0d25b3b0c4. -/
def path_id_for (u : String → String) (p : String) : String :=
  u ("winpath:" ++ normalize_win_for_id p)

/-- One scanned file record as handed to the plan loop of main (fields of the
ScannedFile produced by the external scanner). -/
structure ScannedFile where
  win_path : String
  drive : Option String
  dir : Option String
  name : Option String
  ext : Option String
  size : Int
  mtime_utc : Option String
  corrupt_candidate : Bool
  corrupt_reason : String
deriving Repr, DecidableEq

/-- A rows_for_plan entry. -/
structure PlanRow where
  path : String
  path_id : String
  status : String
  reason : String
  ts : String
deriving Repr, DecidableEq

/-- A rows_for_apply entry (the fields written by the backfill plan loop). -/
structure ApplyOp where
  op : String
  path_id : String
  path : String
  old_path : Option String
  drive : Option String
  dir : Option String
  name : Option String
  ext : Option String
  size_bytes : Int
  mtime_utc : Option String
  type : Option String
deriving Repr, DecidableEq

/-- SQL equality `p.name = ?` against a nullable column and a nullable
parameter: NULL compares unequal to everything, including NULL. -/
def sqlEqOpt (a b : Option String) : Bool :=
  match a, b with
  | some x, some y => x == y
  | _, _ => false

/-- The rename-candidate query of main (lines 559-570): paths joined to
observations on path_id, filtered by name and observation size; GROUP BY
(path_id, path) collapses the join multiplicity, which the existential over
observations already does (paths.path_id is the primary key, so distinct rows
of the modelled list are distinct groups); returns (path_id, path) pairs. -/
def renameCandidates (st : Store) (sf : ScannedFile) : List (String × String) :=
  (st.paths.filter fun p =>
    sqlEqOpt p.name sf.name &&
    st.observations.any fun o => o.path_id == p.path_id && o.size_bytes == sf.size).map
    fun p => (p.path_id, p.path)

/-- Outcome of the drive-remap probe (lines 500-528). -/
inductive RemapOutcome where
  | conflictSkip (old_path_id : String)
  | candidate (path_id old_path : String)
  | noMatch
deriving Repr, DecidableEq

/-- First two characters of the scanned path upper-cased (sf.win_path[:2]
followed by .upper(), code points as in Python). -/
def curDrive (p : String) : String :=
  String.mk ((p.toList.take 2).map Char.toUpper)

/-- Python `{v: k for k, v in drive_map.items()}` lookup: the last pair whose
value matches wins. -/
def invLookup (drive_map : List (String × String)) (v : String) : Option String :=
  (drive_map.reverse.find? fun kv => kv.2 == v).map fun kv => kv.1

/-- The drive-remap probe of main: when a drive map is configured, the scanned
path has a drive-letter prefix and the drive's old counterpart is mapped, look
up the old-drive path; a hit claimed by a different surviving identity is a
conflict skip, otherwise a remap candidate. -/
def remapCheck (st : Store) (drive_map : List (String × String))
    (sf : ScannedFile) : RemapOutcome :=
  if drive_map.isEmpty then .noMatch
  else if 3 ≤ sf.win_path.toList.length && sf.win_path.toList.get? 1 == some ':' then
    match invLookup drive_map (curDrive sf.win_path) with
    | none => .noMatch
    | some old_drive =>
      let old_path := old_drive ++ String.mk (sf.win_path.toList.drop 2)
      match st.paths.find? fun p => p.path == old_path with
      | none => .noMatch
      | some old_row =>
        match st.paths.find? fun p => p.path == sf.win_path with
        | some new_conflict =>
          if new_conflict.path_id != old_row.path_id then .conflictSkip old_row.path_id
          else .candidate old_row.path_id old_path
        | none => .candidate old_row.path_id old_path
  else .noMatch

/-- The per-file plan decision for a file missing from paths (lines 498-634):
drive-remap probe first, then rename detection over (name, size_bytes)
candidates limited to 20, else a fresh insert plan. -/
def planForMissing (u : String → String) (tsRun : String) (st : Store)
    (drive_map : List (String × String)) (sf : ScannedFile) :
    List PlanRow × List ApplyOp :=
  match remapCheck st drive_map sf with
  | .conflictSkip old_pid =>
    ([{ path := sf.win_path, path_id := old_pid, status := "skipped",
        reason := "conflict_skip", ts := tsRun }], [])
  | .candidate pid old_path =>
    ([{ path := sf.win_path, path_id := pid, status := "remapped",
        reason := "drive_map", ts := tsRun }],
     [{ op := "remap_update", path_id := pid, path := sf.win_path,
        old_path := some old_path, drive := sf.drive, dir := sf.dir,
        name := sf.name, ext := sf.ext, size_bytes := sf.size,
        mtime_utc := sf.mtime_utc, type := sf.ext }])
  | .noMatch =>
    let rename_rows := (renameCandidates st sf).take 20
    if rename_rows.length == 1 then
      let old := rename_rows.headD ("", "")
      ([{ path := sf.win_path, path_id := old.1, status := "planned",
          reason := "rename_detected", ts := tsRun }],
       [{ op := "rename_update", path_id := old.1, path := sf.win_path,
          old_path := some old.2, drive := sf.drive, dir := sf.dir,
          name := sf.name, ext := sf.ext, size_bytes := sf.size,
          mtime_utc := sf.mtime_utc, type := sf.ext }])
    else if 1 < rename_rows.length then
      ([{ path := sf.win_path, path_id := path_id_for u sf.win_path,
          status := "skipped", reason := "rename_ambiguous", ts := tsRun }], [])
    else
      ([{ path := sf.win_path, path_id := path_id_for u sf.win_path,
          status := "planned", reason := "missing_path", ts := tsRun }],
       [{ op := "insert_or_upsert", path_id := path_id_for u sf.win_path,
          path := sf.win_path, old_path := none, drive := sf.drive,
          dir := sf.dir, name := sf.name, ext := sf.ext, size_bytes := sf.size,
          mtime_utc := sf.mtime_utc, type := sf.ext }])

/-- The whole per-file step of the plan loop (lines 449-634): corrupt gate,
existing-path check (with the optional missing-observation backfill), then the
missing-path decision. -/
def planScanned (u : String → String) (tsRun : String) (st : Store)
    (drive_map : List (String × String)) (include_observations : Bool)
    (sf : ScannedFile) : List PlanRow × List ApplyOp :=
  if sf.corrupt_candidate then
    ([{ path := sf.win_path, path_id := path_id_for u sf.win_path,
        status := "error", reason := "corrupt_candidate:" ++ sf.corrupt_reason,
        ts := tsRun }], [])
  else
    match st.paths.find? fun p => p.path == sf.win_path with
    | some existing =>
      if include_observations then
        if st.observations.any fun o => o.path_id == existing.path_id then ([], [])
        else
          ([{ path := sf.win_path, path_id := existing.path_id,
              status := "planned", reason := "missing_observation", ts := tsRun }],
           [{ op := "obs_only", path_id := existing.path_id, path := sf.win_path,
              old_path := none, drive := sf.drive, dir := sf.dir, name := sf.name,
              ext := sf.ext, size_bytes := sf.size, mtime_utc := sf.mtime_utc,
              type := sf.ext }])
      else ([], [])
    | none => planForMissing u tsRun st drive_map sf

end Backfill

namespace Ingest

/-- normalize_win_path from ingest_inventory_jsonl.py. -/
def normalize_win_path (p : String) : String :=
  String.mk ((replaceSlashes p).toList.map Char.toLower)

/-- path_id_for from ingest_inventory_jsonl.py, over the same fixed uuid-v5
namespace constant as the backfill script (abstracted as u). -/
def path_id_for (u : String → String) (p : String) : String :=
  u ("winpath:" ++ normalize_win_path p)

end Ingest

namespace Dedup

/-- The Candidate dataclass of dedup_recordings.py.  The float fields
(confidence, mtime_ts) are modelled as Int since the engine only orders them;
raw_meta is modelled as an association list. -/
structure Candidate where
  path_id : String
  path : String
  group_key : String
  confidence : Int
  needs_review : Bool
  program_title : String
  air_date : Option String
  episode_no : Option String
  subtitle : Option String
  bucket : String
  bucket_reason : String
  size_bytes : Int
  mtime_ts : Int
  resolution_score : Int
  not_corrupt : Int
  raw_meta : List (String × String)
deriving Repr, DecidableEq

/-- The sort key of choose_keep:
(-not_corrupt, -resolution_score, -size_bytes, -mtime_ts, path). -/
def sortKey (c : Candidate) : Int × Int × Int × Int × String :=
  (-c.not_corrupt, -c.resolution_score, -c.size_bytes, -c.mtime_ts, c.path)

/-- One level of Python tuple comparison: strictly less on the first
component, strictly greater loses, ties defer to the rest. -/
def lexB2 (x y : Int) (rest : Bool) : Bool :=
  if x < y then true else if y < x then false else rest

/-- Python tuple `<=` on the sort keys (the order `sorted` uses). -/
def keyLe (a b : Candidate) : Bool :=
  lexB2 (-a.not_corrupt) (-b.not_corrupt)
    (lexB2 (-a.resolution_score) (-b.resolution_score)
      (lexB2 (-a.size_bytes) (-b.size_bytes)
        (lexB2 (-a.mtime_ts) (-b.mtime_ts) (!strLtb b.path a.path))))

/-- Python tuple `<` on the sort keys: the strict priority order of the
ranking comment in choose_keep. -/
def keyLt (a b : Candidate) : Bool :=
  lexB2 (-a.not_corrupt) (-b.not_corrupt)
    (lexB2 (-a.resolution_score) (-b.resolution_score)
      (lexB2 (-a.size_bytes) (-b.size_bytes)
        (lexB2 (-a.mtime_ts) (-b.mtime_ts) (strLtb a.path b.path))))

/-- choose_keep from dedup_recordings.py: stable sort by the key, first
element (Option models the IndexError on an empty cohort). -/
def choose_keep (candidates : List Candidate) : Option Candidate :=
  (candidates.mergeSort keyLe).head?

end Dedup

namespace Placement

/-- A JSON scalar as passed around in the metadata dicts of
path_placement_rules.py. -/
inductive JVal where
  | s (v : String)
  | b (v : Bool)
  | i (v : Int)
  | null
deriving Repr, DecidableEq

/-- Python truthiness of a JSON scalar. -/
def jFalsy : JVal → Bool
  | .s v => v == ""
  | .b v => !v
  | .i n => n == 0
  | .null => true

/-- Python str() of a JSON scalar. -/
def pyStr : JVal → String
  | .s v => v
  | .b true => "True"
  | .b false => "False"
  | .i n => toString n
  | .null => "None"

/-- A metadata dict (unique keys) modelled as an association list;
md.get(k). -/
def mdGet (md : List (String × JVal)) (k : String) : Option JVal :=
  (md.find? fun kv => kv.1 == k).map fun kv => kv.2

/-- has_required_db_contract: every key of DB_CONTRACT_REQUIRED present, and
needs_review an actual boolean. -/
def has_required_db_contract (md : List (String × JVal)) : Bool :=
  (mdGet md "program_title").isSome && (mdGet md "air_date").isSome &&
  (mdGet md "needs_review").isSome &&
  (match mdGet md "needs_review" with
   | some (.b _) => true
   | _ => false)

/-- Whitespace as matched by str.strip() and the WS character class
(common whitespace plus the explicit U+3000 of the source regex). -/
def isPyWs (c : Char) : Bool :=
  c == ' ' || c == '\t' || c == '\n' || c == '\x0d' || c == '\x0b' || c == '\x0c' ||
  c == '　'

/-- str.strip() on the character list. -/
def pyStripChars (l : List Char) : List Char :=
  ((l.dropWhile isPyWs).reverse.dropWhile isPyWs).reverse

/-- str.rstrip() on the character list. -/
def pyRstripChars (l : List Char) : List Char :=
  (l.reverse.dropWhile isPyWs).reverse

/-- A control character of the CTRL class [\x00-\x1f]. -/
def isCtrl (c : Char) : Bool := c.toNat ≤ 31

/-- A path-forbidden character of the FORB class. -/
def isForb (c : Char) : Bool :=
  c == '<' || c == '>' || c == ':' || c == '"' || c == '/' || c == '\\' ||
  c == '|' || c == '?' || c == '*'

/-- WS.sub(" ", s): each maximal whitespace run becomes a single space; the
flag records whether the previous character was part of a run. -/
def collapseWsAux : Bool → List Char → List Char
  | _, [] => []
  | prevWs, c :: rest =>
    if isPyWs c then
      if prevWs then collapseWsAux true rest
      else ' ' :: collapseWsAux true rest
    else c :: collapseWsAux false rest

/-- WS.sub(" ", s). -/
def collapseWs (l : List Char) : List Char := collapseWsAux false l

/-- TRAIL.sub("", s): delete the trailing run of dots and spaces. -/
def trimTrailDotSpace (l : List Char) : List Char :=
  (l.reverse.dropWhile fun c => c == '.' || c == ' ').reverse

/-- safe_dir_name from path_placement_rules.py.  The parameter h1 abstracts
`hashlib.sha1(s.encode("utf-8")).hexdigest()[:8]`. -/
def safe_dir_name (h1 : String → String) (name : String) (maxlen : Nat) : String :=
  let s1 := pyStripChars name.toList
  let s2 := s1.filter fun c => !isCtrl c
  let s3 := s2.map fun c => if isForb c then '＿' else c
  let s4 := collapseWs s3
  let s5 := trimTrailDotSpace s4
  let s6 := if s5.isEmpty then "UNKNOWN".toList else s5
  if maxlen < s6.length then
    String.mk (pyRstripChars (s6.take (maxlen - 9))) ++ "_" ++ h1 (String.mk s6)
  else String.mk s6

/-- str.split("-", 2): at most two splits, the remainder keeps its dashes. -/
def splitMaxTwoDash (s : String) : List String :=
  match (splitOnChar '-' s.toList).map (fun l => String.mk l) with
  | a :: b :: c :: rest => [a, b, joinWith "-" (c :: rest)]
  | other => other

/-- extract_year_month_from_air_date: str(air_date or "").strip(); empty is
missing_air_date; a successful 3-way unpack of split("-", 2) with a 4-digit
year and 2-digit month succeeds, anything else is invalid_air_date.
str.isdigit is modelled on ASCII digits. -/
def extract_year_month_from_air_date (v : Option JVal) :
    Option String × Option String × Option String :=
  let s0 := match v with
    | none => ""
    | some j => if jFalsy j then "" else pyStr j
  let s := String.mk (pyStripChars s0.toList)
  if s == "" then (none, none, some "missing_air_date")
  else
    match splitMaxTwoDash s with
    | [y, m, _] =>
      if y.toList.length == 4 && y.toList.all Char.isDigit &&
         m.toList.length == 2 && m.toList.all Char.isDigit then
        (some y, some m, none)
      else (none, none, some "invalid_air_date")
    | _ => (none, none, some "invalid_air_date")

/-- PureWindowsPath(p).name: unify separators, drop a drive prefix, and take
the last non-empty, non-dot component. -/
def winName (p : String) : String :=
  let q := (replaceSlashes p).toList
  let q2 := if q.get? 1 == some ':' then q.drop 2 else q
  let parts := (splitOnChar '\\' q2).map fun l => String.mk l
  ((parts.filter fun s => s != "" && s != ".").getLast?).getD ""

/-- str.rstrip("\\"): delete trailing backslashes. -/
def rstripBS (s : String) : String :=
  String.mk ((s.toList.reverse.dropWhile fun c => c == '\\').reverse)

/-- build_expected_dest_path from path_placement_rules.py.  A non-dict md
argument is modelled as none. -/
def build_expected_dest_path (h1 : String → String)
    (dest_root_win src_path_win : String) (md : Option (List (String × JVal))) :
    Option String × Option String :=
  match md with
  | none => (none, some "invalid_metadata_contract")
  | some m =>
    if !has_required_db_contract m then (none, some "invalid_metadata_contract")
    else if (match mdGet m "program_title" with
             | none => true
             | some j => jFalsy j) then (none, some "missing_program_title")
    else
      match extract_year_month_from_air_date (mdGet m "air_date") with
      | (_, _, some err) => (none, some err)
      | (yOpt, mOpt, none) =>
        let y := match yOpt with
          | some v => v
          | none => "None"
        let mo := match mOpt with
          | some v => v
          | none => "None"
        let title := match mdGet m "program_title" with
          | some j => if jFalsy j then "" else pyStr j
          | none => ""
        let prog_dir := safe_dir_name h1 title 60
        let filename := winName src_path_win
        if filename == "" then (none, some "missing_filename")
        else
          (some (rstripBS dest_root_win ++ "\\" ++ prog_dir ++ "\\" ++ y ++ "\\" ++
                 mo ++ "\\" ++ filename), none)

end Placement

/- ===== Concrete fixtures used by witnesses and counterexamples ===== -/

/-- A human_reviewed extractor for concrete runs: no metadata blob marks
human_reviewed. -/
def hr0 : String → Bool := fun _ => false

/-- Concrete run options with the argparse defaults. -/
def opts0 : UpdateDb.RunOpts :=
  { run_kind := "apply", event_kind := "move", detail_source := "apply_move_plan.ps1",
    notes := none, applied_basename := "move_apply.jsonl" }

/-- A tracked path row at C:\a\x.mp4. -/
def rowP1 : PathRow :=
  { path_id := "P1", path := "C:\\a\\x.mp4", drive := some "C", dir := some "C:\\a",
    name := some "x.mp4", ext := some ".mp4", created_at := "t0", updated_at := "t0" }

/-- A second tracked path row already owning C:\b\x.mp4. -/
def rowP2 : PathRow :=
  { path_id := "P2", path := "C:\\b\\x.mp4", drive := some "C", dir := some "C:\\b",
    name := some "x.mp4", ext := some ".mp4", created_at := "t0", updated_at := "t0" }

/-- A store holding only rowP1. -/
def store1 : Store :=
  { paths := [rowP1], path_metadata := [], observations := [], file_paths := [],
    path_tags := [], events := [], runs := [] }

/-- A store holding rowP1 and rowP2. -/
def store2 : Store :=
  { paths := [rowP1, rowP2], path_metadata := [], observations := [], file_paths := [],
    path_tags := [], events := [], runs := [] }

/-- A move outcome for P1 reported with ok=false and an error string. -/
def recNoOk : UpdateDb.MoveRec :=
  { op := some "move", ok := false, path_id := some "P1", src := some "C:\\a\\x.mp4",
    dst := some "C:\\b\\x.mp4", ts := some "ts1" }

/-- A successful move outcome for P1 to C:\b\x.mp4. -/
def recMv : UpdateDb.MoveRec :=
  { op := some "move", ok := true, path_id := some "P1", src := some "C:\\a\\x.mp4",
    dst := some "C:\\b\\x.mp4", ts := some "ts1" }

/-- A successful move outcome whose path_id field is empty. -/
def recEmptyPid : UpdateDb.MoveRec :=
  { op := some "move", ok := true, path_id := some "", src := some "C:\\a\\x.mp4",
    dst := some "C:\\b\\x.mp4", ts := some "ts1" }

/-- An observation recording 100 bytes for P1. -/
def obs1 : ObservationRow :=
  { run_id := "run0", path_id := "P1", size_bytes := 100, mtime_utc := none,
    type := none, name_flags := none }

/-- A store where rowP1 has a size-100 observation. -/
def storeB : Store :=
  { paths := [rowP1], path_metadata := [], observations := [obs1], file_paths := [],
    path_tags := [], events := [], runs := [] }

/-- A scanned, non-corrupt file at a new path whose (name, size) matches
rowP1's observation. -/
def sfNew : Backfill.ScannedFile :=
  { win_path := "C:\\new\\x.mp4", drive := some "C", dir := some "C:\\new",
    name := some "x.mp4", ext := some ".mp4", size := 100,
    mtime_utc := some "2024-01-02T00:00:00Z", corrupt_candidate := false,
    corrupt_reason := "" }

/- ===== Generic list and comparison lemmas ===== -/

/-- find? by a key equals the unique key-matching element. -/
theorem find?_key_eq {α : Type} (f : α → String) (l : List α) (a : α) (k : String)
    (hnd : (l.map f).Nodup) (ha : a ∈ l) (hk : f a = k) :
    l.find? (fun x => f x == k) = some a := by
  induction l with
  | nil => simp at ha
  | cons b t ih =>
    simp only [List.map_cons, List.nodup_cons] at hnd
    rcases List.mem_cons.mp ha with rfl | hat
    · exact List.find?_cons_of_pos _ (by simp [hk])
    · have hbk : f b ≠ k := by
        intro h
        exact hnd.1 (by rw [h, ← hk]; exact List.mem_map_of_mem f hat)
      rw [List.find?_cons_of_neg _ (by simp [hbk])]
      exact ih hnd.2 hat

/-- Under a Nodup key list, at most one element matches a key. -/
theorem length_filter_key_le_one {α : Type} (f : α → String) (l : List α)
    (k : String) (hnd : (l.map f).Nodup) :
    (l.filter fun x => f x == k).length ≤ 1 := by
  induction l with
  | nil => simp
  | cons b t ih =>
    simp only [List.map_cons, List.nodup_cons] at hnd
    by_cases hb : f b = k
    · have ht : t.filter (fun x => f x == k) = [] := by
        apply List.filter_eq_nil_iff.mpr
        intro x hx
        simp only [beq_iff_eq]
        intro hfx
        exact hnd.1 (by rw [hb, ← hfx]; exact List.mem_map_of_mem f hx)
      simp [List.filter_cons, hb, ht]
    · simp only [List.filter_cons]
      rw [if_neg (by simp [hb])]
      exact ih hnd.2

/-- Under a Nodup key list, a key that occurs matches exactly one element. -/
theorem length_filter_key_eq_one {α : Type} (f : α → String) (l : List α)
    (a : α) (k : String) (hnd : (l.map f).Nodup) (ha : a ∈ l) (hk : f a = k) :
    (l.filter fun x => f x == k).length = 1 := by
  have hle := length_filter_key_le_one f l k hnd
  have hmem : a ∈ l.filter fun x => f x == k :=
    List.mem_filter.mpr ⟨ha, by simp [hk]⟩
  have hpos : 0 < (l.filter fun x => f x == k).length :=
    List.length_pos_of_mem hmem
  omega

/-- Filtering a mapped list counts the pre-images whose image matches. -/
theorem length_filter_map {α β : Type} (g : α → β) (q : β → Bool) (l : List α) :
    ((l.map g).filter q).length = (l.filter fun x => q (g x)).length := by
  induction l with
  | nil => rfl
  | cons b t ih =>
    simp only [List.map_cons, List.filter_cons]
    by_cases hb : q (g b) = true
    · simp [hb, ih]
    · simp [hb, ih]

/-- charsLt is irreflexive. -/
theorem charsLt_irrefl : ∀ l : List Char, charsLt l l = false := by
  intro l
  induction l with
  | nil => rfl
  | cons c t ih => simp [charsLt, ih]

/-- charsLt is asymmetric. -/
theorem charsLt_asymm : ∀ x y : List Char, charsLt x y = true → charsLt y x = false := by
  intro x
  induction x with
  | nil =>
    intro y h
    cases y with
    | nil => simp [charsLt] at h
    | cons b bs => simp [charsLt]
  | cons a as ih =>
    intro y h
    cases y with
    | nil => simp [charsLt] at h
    | cons b bs =>
      simp only [charsLt] at h ⊢
      by_cases h1 : a.toNat < b.toNat
      · rw [if_neg (by omega), if_pos (by omega)]
      · by_cases h2 : b.toNat < a.toNat
        · rw [if_neg h1, if_pos h2] at h
          simp at h
        · have hn : a.toNat = b.toNat := by omega
          rw [if_neg h1, if_neg h2] at h
          rw [if_neg (by omega), if_neg (by omega)]
          exact ih bs h

/-- charsLt is transitive. -/
theorem charsLt_trans :
    ∀ x y z : List Char, charsLt x y = true → charsLt y z = true →
      charsLt x z = true := by
  intro x
  induction x with
  | nil =>
    intro y z hxy hyz
    cases y with
    | nil => simp [charsLt] at hxy
    | cons b bs =>
      cases z with
      | nil => simp [charsLt] at hyz
      | cons c cs => simp [charsLt]
  | cons a as ih =>
    intro y z hxy hyz
    cases y with
    | nil => simp [charsLt] at hxy
    | cons b bs =>
      cases z with
      | nil => simp [charsLt] at hyz
      | cons c cs =>
        simp only [charsLt] at hxy hyz ⊢
        by_cases h1 : a.toNat < b.toNat
        · by_cases h2 : b.toNat < c.toNat
          · rw [if_pos (by omega)]
          · by_cases h3 : c.toNat < b.toNat
            · rw [if_neg h2, if_pos h3] at hyz
              simp at hyz
            · rw [if_pos (by omega)]
        · by_cases h3 : b.toNat < a.toNat
          · rw [if_neg h1, if_pos h3] at hxy
            simp at hxy
          · have hab : a.toNat = b.toNat := by omega
            by_cases h2 : b.toNat < c.toNat
            · rw [if_pos (by omega)]
            · by_cases h4 : c.toNat < b.toNat
              · rw [if_neg h2, if_pos h4] at hyz
                simp at hyz
              · rw [if_neg h1, if_neg h3] at hxy
                rw [if_neg h2, if_neg h4] at hyz
                rw [if_neg (by omega), if_neg (by omega)]
                exact ih bs cs hxy hyz

/-- charsLt is connected: mutually non-less lists are equal. -/
theorem charsLt_conn :
    ∀ x y : List Char, charsLt x y = false → charsLt y x = false → x = y := by
  intro x
  induction x with
  | nil =>
    intro y h1 _
    cases y with
    | nil => rfl
    | cons b bs => simp [charsLt] at h1
  | cons a as ih =>
    intro y h1 h2
    cases y with
    | nil => simp [charsLt] at h2
    | cons b bs =>
      simp only [charsLt] at h1 h2
      by_cases hab : a.toNat < b.toNat
      · rw [if_pos hab] at h1
        simp at h1
      · by_cases hba : b.toNat < a.toNat
        · rw [if_pos hba] at h2
          simp at h2
        · have hn : a.toNat = b.toNat := by omega
          have hc : a = b := Char.ext (UInt32.ext hn)
          rw [if_neg hab, if_neg hba] at h1
          rw [if_neg hba, if_neg hab] at h2
          rw [hc, ih bs h1 h2]

/-- strLtb is asymmetric. -/
theorem strLtb_asymm (a b : String) (h : strLtb a b = true) : strLtb b a = false :=
  charsLt_asymm _ _ h

/-- strLtb is transitive. -/
theorem strLtb_trans (a b c : String) (h1 : strLtb a b = true)
    (h2 : strLtb b c = true) : strLtb a c = true :=
  charsLt_trans _ _ _ h1 h2

/-- strLtb is connected: mutually non-less strings are equal. -/
theorem strLtb_conn (a b : String) (h1 : strLtb a b = false)
    (h2 : strLtb b a = false) : a = b := by
  have h := charsLt_conn a.toList b.toList h1 h2
  have : a.data = b.data := h
  exact String.ext this

/- ===== C5 ===== -/

/-- C5: path_id is a pure deterministic function of the path string: whenever
two path strings normalize to the same backslash-unified, lower-cased form,
path_id_for yields the same id (for any uuid-v5 namespace function u), and
the backfill and ingest scripts compute the identical function, each applying
u (uuid-v5 over the fixed namespace) to the normalized string prefixed with
"winpath:". -/
theorem path_id_for_deterministic (u : String → String) (p1 p2 : String)
    (h : Backfill.normalize_win_for_id p1 = Backfill.normalize_win_for_id p2) :
    Backfill.path_id_for u p1 = Backfill.path_id_for u p2 ∧
    Ingest.path_id_for u p1 = Ingest.path_id_for u p2 ∧
    Backfill.path_id_for u p1 = Ingest.path_id_for u p1 ∧
    Backfill.path_id_for u p1 = u ("winpath:" ++ Backfill.normalize_win_for_id p1) := by
  have h2 : Ingest.normalize_win_path p1 = Ingest.normalize_win_path p2 := h
  refine ⟨?_, ?_, rfl, rfl⟩
  · simp [Backfill.path_id_for, h]
  · simp [Ingest.path_id_for, h2]

/-- Witness for C5 at the concrete pair C:/A and c:\a. -/
theorem path_id_for_deterministic_witness :
    Backfill.normalize_win_for_id "C:/A" = Backfill.normalize_win_for_id "c:\\a" ∧
    Backfill.path_id_for id "C:/A" = Backfill.path_id_for id "c:\\a" :=
  ⟨by decide, (path_id_for_deterministic id "C:/A" "c:\\a" (by decide)).1⟩

/- ===== C8 ===== -/

/-- C8 counterexample: the claim says the computation fails for every
air_date not of the form YYYY-MM-DD, but "2024-01-banana" (malformed day
part) is accepted and a destination is returned — only the year and month
fields are validated. -/
theorem build_dest_accepts_malformed_day :
    Placement.build_expected_dest_path (fun _ => "deadbeef") "D:\\lib" "C:\\x\\a.mp4"
      (some [("program_title", Placement.JVal.s "Show"),
             ("air_date", Placement.JVal.s "2024-01-banana"),
             ("needs_review", Placement.JVal.b false)]) =
    (some "D:\\lib\\Show\\2024\\01\\a.mp4", none) := by decide

/-- C8 amended: a non-dict or contract-violating metadata object fails with
invalid_metadata_contract; when the contract holds, a falsy program_title
fails with missing_program_title; an air_date whose stripped string is empty
or whose first two dash-separated fields are not a 4-digit year and a 2-digit
month fails with the extractor's error (the day part is never validated);
when the contract holds, program_title is truthy, the year/month parse
succeeds and the source filename is non-empty, the result is dest_root with
trailing backslashes stripped joined with sanitized(program_title), year,
month and the unchanged original filename. -/
theorem build_dest_contract (h1 : String → String) (droot sp : String)
    (md : Option (List (String × Placement.JVal))) :
    (md = none →
      Placement.build_expected_dest_path h1 droot sp md =
        (none, some "invalid_metadata_contract")) ∧
    (∀ m, md = some m → Placement.has_required_db_contract m = false →
      Placement.build_expected_dest_path h1 droot sp md =
        (none, some "invalid_metadata_contract")) ∧
    (∀ m j, md = some m → Placement.has_required_db_contract m = true →
      Placement.mdGet m "program_title" = some j → Placement.jFalsy j = true →
      Placement.build_expected_dest_path h1 droot sp md =
        (none, some "missing_program_title")) ∧
    (∀ m j err, md = some m → Placement.has_required_db_contract m = true →
      Placement.mdGet m "program_title" = some j → Placement.jFalsy j = false →
      Placement.extract_year_month_from_air_date (Placement.mdGet m "air_date") =
        (none, none, some err) →
      Placement.build_expected_dest_path h1 droot sp md = (none, some err)) ∧
    (∀ m j y mo, md = some m → Placement.has_required_db_contract m = true →
      Placement.mdGet m "program_title" = some j → Placement.jFalsy j = false →
      Placement.extract_year_month_from_air_date (Placement.mdGet m "air_date") =
        (some y, some mo, none) →
      Placement.winName sp ≠ "" →
      Placement.build_expected_dest_path h1 droot sp md =
        (some (Placement.rstripBS droot ++ "\\" ++
               Placement.safe_dir_name h1 (Placement.pyStr j) 60 ++ "\\" ++ y ++
               "\\" ++ mo ++ "\\" ++ Placement.winName sp), none)) := by
  refine ⟨?_, ?_, ?_, ?_, ?_⟩
  · rintro rfl
    rfl
  · rintro m rfl hc
    simp [Placement.build_expected_dest_path, hc]
  · rintro m j rfl hc hj hf
    simp [Placement.build_expected_dest_path, hc, hj, hf]
  · rintro m j err rfl hc hj hf hx
    simp [Placement.build_expected_dest_path, hc, hj, hf, hx]
  · rintro m j y mo rfl hc hj hf hx hn
    simp [Placement.build_expected_dest_path, hc, hj, hf, hx, hn]

/-- Witness for C8 amended at a fully valid metadata object. -/
theorem build_dest_contract_witness :
    Placement.build_expected_dest_path (fun _ => "deadbeef") "D:\\lib" "C:\\x\\a.mp4"
      (some [("program_title", Placement.JVal.s "Show"),
             ("air_date", Placement.JVal.s "2024-01-02"),
             ("needs_review", Placement.JVal.b false)]) =
    (some ("D:\\lib" ++ "\\" ++ "Show" ++ "\\" ++ "2024" ++ "\\" ++ "01" ++ "\\" ++ "a.mp4"),
     none) := by
  have h := (build_dest_contract (fun _ => "deadbeef") "D:\\lib" "C:\\x\\a.mp4"
    (some [("program_title", Placement.JVal.s "Show"),
           ("air_date", Placement.JVal.s "2024-01-02"),
           ("needs_review", Placement.JVal.b false)])).2.2.2.2
  have h2 := h _ (Placement.JVal.s "Show") "2024" "01" rfl (by decide) (by decide)
    (by decide) (by decide) (by decide)
  rw [h2]
  decide

/- ===== C10 ===== -/

/-- C10: a record of the applied JSONL whose path_id or dst is missing, null
or empty is dropped at intake even when op = "move" and ok is true: the whole
run (store mutations, events, and every summary counter) is identical to the
run on the artifact without that record. -/
theorem applyRun_drops_falsy_ids (hr : String → Bool) (tsRun runId : String)
    (opts : UpdateDb.RunOpts) (st : Store)
    (pre post : List UpdateDb.MoveRec) (rec : UpdateDb.MoveRec)
    (hop : rec.op = some "move") (hok : rec.ok = true)
    (hbad : falsyStr rec.path_id = true ∨ falsyStr rec.dst = true) :
    UpdateDb.applyRun hr tsRun runId opts st (pre ++ rec :: post) =
      UpdateDb.applyRun hr tsRun runId opts st (pre ++ post) := by
  have hparse : UpdateDb.parseMoveRows tsRun (pre ++ rec :: post) =
      UpdateDb.parseMoveRows tsRun (pre ++ post) := by
    simp only [UpdateDb.parseMoveRows, List.filterMap_append, List.filterMap_cons]
    rcases hbad with hb | hb <;> simp [hop, hok, hb]
  simp only [UpdateDb.applyRun, hparse]

/-- Witness for C10: a move record with an empty path_id contributes nothing
to a concrete run. -/
theorem applyRun_drops_falsy_ids_witness :
    UpdateDb.applyRun hr0 "t1" "r1" opts0 store1 ([recMv] ++ recEmptyPid :: []) =
      UpdateDb.applyRun hr0 "t1" "r1" opts0 store1 ([recMv] ++ []) :=
  applyRun_drops_falsy_ids hr0 "t1" "r1" opts0 store1 [recMv] [] recEmptyPid
    (by decide) (by decide) (Or.inl (by decide))

/- ===== C3 ===== -/

/-- After _merge_path_metadata no metadata row carries the source id. -/
theorem mergePathMetadata_no_src (hr : String → Bool) (pm : List MetadataRow)
    (src dst : String) (hne : src ≠ dst) :
    ∀ r ∈ (UpdateDb.mergePathMetadata hr pm src dst).1, r.path_id ≠ src := by
  intro r hres
  unfold UpdateDb.mergePathMetadata at hres
  rcases hfs : pm.find? (fun x => x.path_id == src) with _ | srcRow
  · simp only [hfs] at hres
    have := List.find?_eq_none.mp hfs r hres
    simpa using this
  · simp only [hfs] at hres
    rcases hfd : pm.find? (fun x => x.path_id == dst) with _ | dstRow
    · simp only [hfd] at hres
      obtain ⟨x, hx, rfl⟩ := List.mem_map.mp hres
      by_cases hxs : (x.path_id == src) = true
      · rw [if_pos hxs]
        exact Ne.symm hne
      · rw [if_neg hxs]
        simpa using hxs
    · simp only [hfd] at hres
      by_cases hp : ((if UpdateDb.rankGtb (UpdateDb.metadataRank hr (some srcRow))
            (UpdateDb.metadataRank hr (some dstRow)) then srcRow
          else dstRow).path_id == src) = true
      · rw [if_pos hp] at hres
        have := List.mem_filter.mp hres
        simpa using this.2
      · rw [if_neg hp] at hres
        have := List.mem_filter.mp hres
        simpa using this.2

/-- The combined collision filter over a dst key reduces to the dst key when
the two ids differ. -/
theorem filter_not_src_and_dst (pm : List MetadataRow) (src dst : String)
    (hne : src ≠ dst) :
    (pm.filter fun a => a.path_id == dst && a.path_id != src) =
      pm.filter fun a => a.path_id == dst := by
  apply List.filter_congr
  intro a _
  by_cases h : a.path_id = dst
  · simp [h, Ne.symm hne]
  · simp [h]

/-- After _merge_path_metadata at most one metadata row carries the
destination id. -/
theorem mergePathMetadata_dst_le_one (hr : String → Bool)
    (pm : List MetadataRow) (src dst : String) (hne : src ≠ dst)
    (hnd : (pm.map MetadataRow.path_id).Nodup) :
    ((UpdateDb.mergePathMetadata hr pm src dst).1.filter
        fun r => r.path_id == dst).length ≤ 1 := by
  unfold UpdateDb.mergePathMetadata
  rcases hfs : pm.find? (fun x => x.path_id == src) with _ | srcRow
  · simp only [hfs]
    exact length_filter_key_le_one MetadataRow.path_id pm dst hnd
  · simp only [hfs]
    rcases hfd : pm.find? (fun x => x.path_id == dst) with _ | dstRow
    · simp only [hfd]
      have hnod : ∀ x ∈ pm, x.path_id ≠ dst := by
        intro x hx
        have := List.find?_eq_none.mp hfd x hx
        simpa using this
      rw [length_filter_map]
      have hcg : (pm.filter fun x =>
          ((if x.path_id == src then { x with path_id := dst } else x) :
            MetadataRow).path_id == dst) =
          pm.filter fun x => x.path_id == src := by
        apply List.filter_congr
        intro x hx
        by_cases hxs : (x.path_id == src) = true
        · simp only [if_pos hxs]
          simp [hxs]
        · simp only [if_neg hxs]
          have h1 : x.path_id ≠ src := by simpa using hxs
          have h2 : x.path_id ≠ dst := hnod x hx
          simp [h1, h2]
      rw [hcg]
      exact length_filter_key_le_one MetadataRow.path_id pm src hnd
    · simp only [hfd]
      by_cases hp : ((if UpdateDb.rankGtb (UpdateDb.metadataRank hr (some srcRow))
          (UpdateDb.metadataRank hr (some dstRow)) then srcRow
        else dstRow).path_id == src) = true
      · rw [if_pos hp]
        rw [List.filter_filter, length_filter_map]
        have hcg : (pm.filter fun x =>
            ((if x.path_id == dst then
                { x with source := srcRow.source, data_json := srcRow.data_json,
                         updated_at := srcRow.updated_at }
              else x) : MetadataRow).path_id == dst &&
            ((if x.path_id == dst then
                { x with source := srcRow.source, data_json := srcRow.data_json,
                         updated_at := srcRow.updated_at }
              else x) : MetadataRow).path_id != src) =
            pm.filter fun x => x.path_id == dst := by
          apply List.filter_congr
          intro x _
          by_cases hx : (x.path_id == dst) = true
          · simp only [if_pos hx]
            simp only [beq_iff_eq] at hx
            simp [hx, Ne.symm hne]
          · simp only [if_neg hx]
            simp [hx]
        rw [hcg]
        exact length_filter_key_le_one MetadataRow.path_id pm dst hnd
      · rw [if_neg hp]
        rw [List.filter_filter, filter_not_src_and_dst pm src dst hne]
        exact length_filter_key_le_one MetadataRow.path_id pm dst hnd

/-- When both sides have a metadata row, the destination slot survives with
the higher-ranked row's values (rankGtb true: source wins; false: destination
kept). -/
theorem mergePathMetadata_both_survivor (hr : String → Bool)
    (pm : List MetadataRow) (src dst : String) (a b : MetadataRow)
    (hne : src ≠ dst) (hnd : (pm.map MetadataRow.path_id).Nodup)
    (ha : a ∈ pm) (has : a.path_id = src) (hb : b ∈ pm) (hbd : b.path_id = dst) :
    ∃ r ∈ (UpdateDb.mergePathMetadata hr pm src dst).1,
      r.path_id = dst ∧
      (UpdateDb.rankGtb (UpdateDb.metadataRank hr (some a))
          (UpdateDb.metadataRank hr (some b)) = true →
        r.source = a.source ∧ r.data_json = a.data_json ∧
        r.updated_at = a.updated_at) ∧
      (UpdateDb.rankGtb (UpdateDb.metadataRank hr (some a))
          (UpdateDb.metadataRank hr (some b)) = false →
        r.source = b.source ∧ r.data_json = b.data_json ∧
        r.updated_at = b.updated_at) := by
  have hfs : pm.find? (fun x => x.path_id == src) = some a :=
    find?_key_eq MetadataRow.path_id pm a src hnd ha has
  have hfd : pm.find? (fun x => x.path_id == dst) = some b :=
    find?_key_eq MetadataRow.path_id pm b dst hnd hb hbd
  unfold UpdateDb.mergePathMetadata
  simp only [hfs, hfd]
  by_cases hrk : UpdateDb.rankGtb (UpdateDb.metadataRank hr (some a))
      (UpdateDb.metadataRank hr (some b)) = true
  · rw [if_pos (by simp [hrk, has])]
    refine ⟨{ b with
                source := a.source,
                data_json := a.data_json,
                updated_at := a.updated_at }, ?_, hbd, ?_, ?_⟩
    · apply List.mem_filter.mpr
      constructor
      · have hmem := List.mem_map_of_mem
          (fun r : MetadataRow =>
            if r.path_id == dst then
              { r with
                  source := a.source,
                  data_json := a.data_json,
                  updated_at := a.updated_at }
            else r) hb
        simpa [hbd] using hmem
      · simp [hbd, Ne.symm hne]
    · intro _
      exact ⟨rfl, rfl, rfl⟩
    · intro h
      rw [hrk] at h
      cases h
  · have hrkf : UpdateDb.rankGtb (UpdateDb.metadataRank hr (some a))
        (UpdateDb.metadataRank hr (some b)) = false := by
      simpa using hrk
    rw [if_neg (by simp [hrkf, hbd, Ne.symm hne])]
    refine ⟨b, List.mem_filter.mpr ⟨hb, by simp [hbd, Ne.symm hne]⟩, hbd, ?_, ?_⟩
    · intro h
      rw [hrkf] at h
      cases h
    · intro _
      exact ⟨rfl, rfl, rfl⟩

/-- C3: a collision merge of a source id into a distinct destination id (both
present, the destination owning the dst path string) leaves no Path row at
the source id and exactly one Path row at the destination id, rewritten to
the new location; no metadata row remains at the source id, at most one at
the destination id, and when both sides had a metadata row the surviving
values are the human-reviewed row's, ties in the flag broken by the
most-recent updated_at. -/
theorem merge_collision_outcome (hr : String → Bool) (st : Store)
    (src dst dst_full dst_dir dst_name ts : String) (hne : src ≠ dst)
    (psrc pdst : PathRow)
    (hpsrc : psrc ∈ st.paths) (hpsrcid : psrc.path_id = src)
    (hpdst : pdst ∈ st.paths) (hpdstid : pdst.path_id = dst)
    (hpdstpath : pdst.path = dst_full)
    (hndp : (st.paths.map PathRow.path_id).Nodup)
    (hndm : (st.path_metadata.map MetadataRow.path_id).Nodup) :
    (∀ p ∈ (UpdateDb.mergePathCollision hr st src dst dst_full dst_dir dst_name
        ts).1.paths, p.path_id ≠ src) ∧
    (((UpdateDb.mergePathCollision hr st src dst dst_full dst_dir dst_name
        ts).1.paths.filter fun p => p.path_id == dst).length = 1) ∧
    (∃ p ∈ (UpdateDb.mergePathCollision hr st src dst dst_full dst_dir dst_name
        ts).1.paths, p.path_id = dst ∧ p.path = dst_full ∧ p.dir = some dst_dir ∧
        p.name = some dst_name) ∧
    (∀ r ∈ (UpdateDb.mergePathCollision hr st src dst dst_full dst_dir dst_name
        ts).1.path_metadata, r.path_id ≠ src) ∧
    (((UpdateDb.mergePathCollision hr st src dst dst_full dst_dir dst_name
        ts).1.path_metadata.filter fun r => r.path_id == dst).length ≤ 1) ∧
    (∀ a ∈ st.path_metadata, a.path_id = src →
     ∀ b ∈ st.path_metadata, b.path_id = dst →
      ((((hr a.data_json = true ∧ hr b.data_json = false) ∨
         (hr a.data_json = hr b.data_json ∧
          strLtb b.updated_at a.updated_at = true)) →
        ∃ r ∈ (UpdateDb.mergePathCollision hr st src dst dst_full dst_dir
            dst_name ts).1.path_metadata,
          r.path_id = dst ∧ r.source = a.source ∧ r.data_json = a.data_json ∧
          r.updated_at = a.updated_at) ∧
       (((hr a.data_json = false ∧ hr b.data_json = true) ∨
         (hr a.data_json = hr b.data_json ∧
          strLtb a.updated_at b.updated_at = true)) →
        ∃ r ∈ (UpdateDb.mergePathCollision hr st src dst dst_full dst_dir
            dst_name ts).1.path_metadata,
          r.path_id = dst ∧ r.source = b.source ∧ r.data_json = b.data_json ∧
          r.updated_at = b.updated_at))) := by
  have hpaths : (UpdateDb.mergePathCollision hr st src dst dst_full dst_dir
      dst_name ts).1.paths =
      (st.paths.map (UpdateDb.mergeUpd dst dst_full dst_dir dst_name ts)).filter
        (fun p => p.path_id != src) := rfl
  have hpm : (UpdateDb.mergePathCollision hr st src dst dst_full dst_dir
      dst_name ts).1.path_metadata =
      (UpdateDb.mergePathMetadata hr st.path_metadata src dst).1 := rfl
  have hkey : ∀ x : PathRow,
      (UpdateDb.mergeUpd dst dst_full dst_dir dst_name ts x).path_id = x.path_id := by
    intro x
    by_cases h : (x.path_id == dst) = true <;> simp [UpdateDb.mergeUpd, h]
  refine ⟨?_, ?_, ?_, ?_, ?_, ?_⟩
  · intro p hp
    rw [hpaths] at hp
    have := (List.mem_filter.mp hp).2
    simpa using this
  · rw [hpaths, List.filter_filter, length_filter_map]
    have hcg : (st.paths.filter fun x =>
        ((UpdateDb.mergeUpd dst dst_full dst_dir dst_name ts x).path_id == dst &&
         (UpdateDb.mergeUpd dst dst_full dst_dir dst_name ts x).path_id != src)) =
        st.paths.filter fun x => x.path_id == dst := by
      apply List.filter_congr
      intro x _
      rw [hkey]
      by_cases h : x.path_id = dst
      · simp [h, Ne.symm hne]
      · simp [h]
    rw [hcg]
    exact length_filter_key_eq_one PathRow.path_id st.paths pdst dst hndp hpdst hpdstid
  · refine ⟨UpdateDb.mergeUpd dst dst_full dst_dir dst_name ts pdst, ?_, ?_, ?_, ?_, ?_⟩
    · rw [hpaths]
      apply List.mem_filter.mpr
      refine ⟨List.mem_map_of_mem _ hpdst, ?_⟩
      rw [hkey, hpdstid]
      simp [Ne.symm hne]
    · rw [hkey, hpdstid]
    · simp [UpdateDb.mergeUpd, hpdstid]
    · simp [UpdateDb.mergeUpd, hpdstid]
    · simp [UpdateDb.mergeUpd, hpdstid]
  · intro r hrm
    rw [hpm] at hrm
    exact mergePathMetadata_no_src hr st.path_metadata src dst hne r hrm
  · rw [hpm]
    exact mergePathMetadata_dst_le_one hr st.path_metadata src dst hne hndm
  · intro a ha has b hb hbd
    obtain ⟨r, hrmem, hrdst, htrue, hfalse⟩ :=
      mergePathMetadata_both_survivor hr st.path_metadata src dst a b hne hndm
        ha has hb hbd
    constructor
    · intro hcond
      have hrk : UpdateDb.rankGtb (UpdateDb.metadataRank hr (some a))
          (UpdateDb.metadataRank hr (some b)) = true := by
        rcases hcond with ⟨h1, h2⟩ | ⟨h1, h2⟩
        · simp [UpdateDb.rankGtb, UpdateDb.metadataRank, h1, h2]
        · simp [UpdateDb.rankGtb, UpdateDb.metadataRank, h1, h2]
      obtain ⟨hs, hd, hu⟩ := htrue hrk
      exact ⟨r, by rw [hpm]; exact hrmem, hrdst, hs, hd, hu⟩
    · intro hcond
      have hrk : UpdateDb.rankGtb (UpdateDb.metadataRank hr (some a))
          (UpdateDb.metadataRank hr (some b)) = false := by
        rcases hcond with ⟨h1, h2⟩ | ⟨h1, h2⟩
        · simp [UpdateDb.rankGtb, UpdateDb.metadataRank, h1, h2]
        · have h3 : strLtb b.updated_at a.updated_at = false :=
            strLtb_asymm _ _ h2
          simp [UpdateDb.rankGtb, UpdateDb.metadataRank, h1, h3]
      obtain ⟨hs, hd, hu⟩ := hfalse hrk
      exact ⟨r, by rw [hpm]; exact hrmem, hrdst, hs, hd, hu⟩

/-- A human-reviewed metadata row at the source id (the hrW extractor flags
the "HR" blob). -/
def mdSrc : MetadataRow :=
  { path_id := "P1", source := "llm", data_json := "HR", updated_at := "u1" }

/-- An unreviewed metadata row at the destination id with a later
updated_at. -/
def mdDst : MetadataRow :=
  { path_id := "P2", source := "tablacus", data_json := "NOT", updated_at := "u9" }

/-- A concrete human_reviewed extractor flagging exactly the "HR" blob. -/
def hrW : String → Bool := fun s => s == "HR"

/-- A store holding both path rows and both metadata rows. -/
def storeM : Store :=
  { paths := [rowP1, rowP2], path_metadata := [mdSrc, mdDst], observations := [],
    file_paths := [], path_tags := [], events := [], runs := [] }

/-- Witness for C3: merging P1 into P2 on the concrete store; the reviewed
source metadata wins despite the destination's later updated_at. -/
theorem merge_collision_outcome_witness :
    (∀ p ∈ (UpdateDb.mergePathCollision hrW storeM "P1" "P2" "C:\\b\\x.mp4"
        "C:\\b" "x.mp4" "t1").1.paths, p.path_id ≠ "P1") ∧
    (∃ r ∈ (UpdateDb.mergePathCollision hrW storeM "P1" "P2" "C:\\b\\x.mp4"
        "C:\\b" "x.mp4" "t1").1.path_metadata,
      r.path_id = "P2" ∧ r.source = mdSrc.source ∧ r.data_json = mdSrc.data_json ∧
      r.updated_at = mdSrc.updated_at) := by
  have h := merge_collision_outcome hrW storeM "P1" "P2" "C:\\b\\x.mp4" "C:\\b"
    "x.mp4" "t1" (by decide) rowP1 rowP2 (by decide) (by decide) (by decide)
    (by decide) (by decide) (by decide) (by decide)
  refine ⟨h.1, ?_⟩
  exact (h.2.2.2.2.2 mdSrc (by decide) (by decide) mdDst (by decide) (by decide)).1
    (Or.inl ⟨by decide, by decide⟩)

/- ===== C6 ===== -/

/-- C6: for a scanned, non-corrupt file absent from the store with no
drive-remap match, the plan row is decided by the number of existing Path
rows (joined to any Observation) matching the file's name and size: exactly
one candidate gives planned/rename_detected reusing that row's path_id (with
the identity-preserving apply op); two or more give skipped/rename_ambiguous
with no planned apply row; zero give planned/missing_path with the freshly
computed deterministic path_id. -/
theorem backfill_rename_detection (u : String → String) (tsRun : String)
    (st : Store) (drive_map : List (String × String)) (includeObs : Bool)
    (sf : Backfill.ScannedFile)
    (hcor : sf.corrupt_candidate = false)
    (habsent : st.paths.find? (fun p => p.path == sf.win_path) = none)
    (hremap : Backfill.remapCheck st drive_map sf = .noMatch) :
    (∀ c : String × String, Backfill.renameCandidates st sf = [c] →
      Backfill.planScanned u tsRun st drive_map includeObs sf =
        ([{ path := sf.win_path, path_id := c.1, status := "planned",
            reason := "rename_detected", ts := tsRun }],
         [{ op := "rename_update", path_id := c.1, path := sf.win_path,
            old_path := some c.2, drive := sf.drive, dir := sf.dir,
            name := sf.name, ext := sf.ext, size_bytes := sf.size,
            mtime_utc := sf.mtime_utc, type := sf.ext }])) ∧
    (2 ≤ (Backfill.renameCandidates st sf).length →
      Backfill.planScanned u tsRun st drive_map includeObs sf =
        ([{ path := sf.win_path, path_id := Backfill.path_id_for u sf.win_path,
            status := "skipped", reason := "rename_ambiguous", ts := tsRun }], [])) ∧
    (Backfill.renameCandidates st sf = [] →
      Backfill.planScanned u tsRun st drive_map includeObs sf =
        ([{ path := sf.win_path, path_id := Backfill.path_id_for u sf.win_path,
            status := "planned", reason := "missing_path", ts := tsRun }],
         [{ op := "insert_or_upsert", path_id := Backfill.path_id_for u sf.win_path,
            path := sf.win_path, old_path := none, drive := sf.drive, dir := sf.dir,
            name := sf.name, ext := sf.ext, size_bytes := sf.size,
            mtime_utc := sf.mtime_utc, type := sf.ext }])) := by
  have hps : Backfill.planScanned u tsRun st drive_map includeObs sf =
      Backfill.planForMissing u tsRun st drive_map sf := by
    simp [Backfill.planScanned, hcor, habsent]
  refine ⟨?_, ?_, ?_⟩
  · intro c hc
    rw [hps]
    simp [Backfill.planForMissing, hremap, hc]
  · intro hlen
    rw [hps]
    have hne : ¬(20 ⊓ (Backfill.renameCandidates st sf).length = 1) := by omega
    have hlt : 1 < (Backfill.renameCandidates st sf).length := by omega
    simp [Backfill.planForMissing, hremap, hne, hlt]
  · intro hc
    rw [hps]
    simp [Backfill.planForMissing, hremap, hc]

/-- Witness for C6: the concrete store storeB holds exactly one (name, size)
candidate for the scanned file sfNew, so the plan row reuses P1. -/
theorem backfill_rename_detection_witness :
    Backfill.planScanned id "t1" storeB [] true sfNew =
      ([{ path := sfNew.win_path, path_id := "P1", status := "planned",
          reason := "rename_detected", ts := "t1" }],
       [{ op := "rename_update", path_id := "P1", path := sfNew.win_path,
          old_path := some "C:\\a\\x.mp4", drive := sfNew.drive, dir := sfNew.dir,
          name := sfNew.name, ext := sfNew.ext, size_bytes := sfNew.size,
          mtime_utc := sfNew.mtime_utc, type := sfNew.ext }]) :=
  (backfill_rename_detection id "t1" storeB [] true sfNew (by decide) (by decide)
      (by decide)).1 ("P1", "C:\\a\\x.mp4") (by decide)

/- ===== C1 ===== -/

/-- Every branch of the apply loop appends exactly one event tuple to
rows_events, and its ok column is the literal 1. -/
theorem stepRow_appends_one_event (hr : String → Bool) (tsRun runId ek ds : String)
    (acc : Store × UpdateDb.Counters × List EventRow) (row : UpdateDb.MoveRow) :
    ∃ ev : EventRow,
      (UpdateDb.stepRow hr tsRun runId ek ds acc row).2.2 = acc.2.2 ++ [ev] ∧
      ev.ok = 1 := by
  unfold UpdateDb.stepRow UpdateDb.stepRowCore
  repeat' split
  all_goals exact ⟨_, rfl, rfl⟩

/-- No branch of the apply loop changes the number of rows already in the
events table (a collision merge only rewrites ids in place). -/
theorem stepRow_events_table_length (hr : String → Bool) (tsRun runId ek ds : String)
    (acc : Store × UpdateDb.Counters × List EventRow) (row : UpdateDb.MoveRow) :
    (UpdateDb.stepRow hr tsRun runId ek ds acc row).1.events.length =
      acc.1.events.length := by
  unfold UpdateDb.stepRow UpdateDb.stepRowCore
  repeat' split
  all_goals
    simp [UpdateDb.mergePathCollision, UpdateDb.repointEvents]

/-- Folding the apply loop appends one rows_events entry per move row (each
with ok = 1) and preserves the events-table length. -/
theorem foldl_stepRow_events (hr : String → Bool) (tsRun runId ek ds : String)
    (rows : List UpdateDb.MoveRow) :
    ∀ acc : Store × UpdateDb.Counters × List EventRow,
      ((rows.foldl (UpdateDb.stepRow hr tsRun runId ek ds) acc).2.2.length =
        acc.2.2.length + rows.length) ∧
      (∀ e ∈ (rows.foldl (UpdateDb.stepRow hr tsRun runId ek ds) acc).2.2,
        e ∈ acc.2.2 ∨ e.ok = 1) ∧
      ((rows.foldl (UpdateDb.stepRow hr tsRun runId ek ds) acc).1.events.length =
        acc.1.events.length) := by
  induction rows with
  | nil =>
    intro acc
    exact ⟨by simp, fun e he => Or.inl he, rfl⟩
  | cons r rs ih =>
    intro acc
    obtain ⟨ev, hev, hok⟩ := stepRow_appends_one_event hr tsRun runId ek ds acc r
    have hlen := stepRow_events_table_length hr tsRun runId ek ds acc r
    have h := ih (UpdateDb.stepRow hr tsRun runId ek ds acc r)
    refine ⟨?_, ?_, ?_⟩
    · rw [List.foldl_cons, h.1, hev]
      simp
      omega
    · intro e he
      rw [List.foldl_cons] at he
      rcases h.2.1 e he with hmem | hok1
      · rw [hev] at hmem
        rcases List.mem_append.mp hmem with h1 | h1
        · exact Or.inl h1
        · simp only [List.mem_singleton] at h1
          subst h1
          exact Or.inr hok
      · exact Or.inr hok1
    · rw [List.foldl_cons, h.2.2, hlen]

/-- A batch whose records all have a falsy ok field contributes no move
row. -/
theorem parseMoveRows_nil_of_not_ok (tsRun : String)
    (recs : List UpdateDb.MoveRec) (hall : ∀ r ∈ recs, r.ok = false) :
    UpdateDb.parseMoveRows tsRun recs = [] := by
  rw [UpdateDb.parseMoveRows, List.filterMap_eq_nil_iff]
  intro a ha
  by_cases hop : a.op = some "move"
  · simp [hop, hall a ha]
  · simp [hop]

/-- C1 counterexample: an outcome with ok = false (the row the claim says is
recorded as an Event with ok = 0 and the error string) is filtered out before
processing — the run writes no Event row at all for it, counts zero events,
and leaves the Path rows unchanged. -/
theorem applyRun_ok_false_no_event :
    recNoOk.op = some "move" ∧ recNoOk.ok = false ∧
    (UpdateDb.applyRun hr0 "t1" "r1" opts0 store1 [recNoOk]).1.events = [] ∧
    (UpdateDb.applyRun hr0 "t1" "r1" opts0 store1 [recNoOk]).2.events = 0 ∧
    (UpdateDb.applyRun hr0 "t1" "r1" opts0 store1 [recNoOk]).1.paths = store1.paths := by
  decide

/-- C1 amended: exactly one Event row is written per outcome that passes the
intake filter (op = "move", truthy ok, truthy path_id and dst), and every
Event row the engine writes has ok = 1; outcomes with ok = false are dropped
at intake and produce neither an Event row nor any Path mutation. -/
theorem applyRun_event_per_consumed_outcome (hr : String → Bool)
    (tsRun runId : String) (opts : UpdateDb.RunOpts) (st : Store)
    (recs : List UpdateDb.MoveRec) :
    ((UpdateDb.applyRun hr tsRun runId opts st recs).1.events.length =
      st.events.length + (UpdateDb.parseMoveRows tsRun recs).length) ∧
    ((UpdateDb.applyRun hr tsRun runId opts st recs).2.events =
      (UpdateDb.parseMoveRows tsRun recs).length) ∧
    (∀ e ∈ (UpdateDb.applyRun hr tsRun runId opts st recs).1.events.drop
        st.events.length, e.ok = 1) ∧
    ((∀ r ∈ recs, r.ok = false) →
      (UpdateDb.applyRun hr tsRun runId opts st recs).1.paths = st.paths ∧
      (UpdateDb.applyRun hr tsRun runId opts st recs).1.events = st.events) := by
  have h := foldl_stepRow_events hr tsRun runId
    (UpdateDb.orDefault opts.event_kind "move")
    (UpdateDb.orDefault opts.detail_source "apply_move_plan.ps1")
    (UpdateDb.parseMoveRows tsRun recs)
    (UpdateDb.insertRunRow st runId (UpdateDb.orDefault opts.run_kind "apply") tsRun
       (UpdateDb.runNotes opts),
     { updated := 0, merged := 0, already := 0, missing := 0 }, [])
  have hinit : (UpdateDb.insertRunRow st runId
      (UpdateDb.orDefault opts.run_kind "apply") tsRun
      (UpdateDb.runNotes opts)).events = st.events := rfl
  refine ⟨?_, ?_, ?_, ?_⟩
  · simp only [UpdateDb.applyRun, UpdateDb.finalizeRun]
    by_cases hemp : (((UpdateDb.parseMoveRows tsRun recs).foldl
        (UpdateDb.stepRow hr tsRun runId (UpdateDb.orDefault opts.event_kind "move")
          (UpdateDb.orDefault opts.detail_source "apply_move_plan.ps1"))
        (UpdateDb.insertRunRow st runId (UpdateDb.orDefault opts.run_kind "apply") tsRun
           (UpdateDb.runNotes opts),
         { updated := 0, merged := 0, already := 0, missing := 0 }, [])).2.2).isEmpty
    · have h0 : (UpdateDb.parseMoveRows tsRun recs).length = 0 := by
        have := h.1
        rw [List.isEmpty_iff] at hemp
        rw [hemp] at this
        simpa using this.symm
      simp only [hemp, if_pos]
      rw [h.2.2, hinit, h0]
      omega
    · simp only [hemp, if_neg, Bool.not_eq_true]
      simp only [List.length_append, h.2.2, hinit, h.1]
      simp
  · simp only [UpdateDb.applyRun]
    have := h.1
    simpa using this
  · intro e he
    simp only [UpdateDb.applyRun, UpdateDb.finalizeRun] at he
    by_cases hemp : (((UpdateDb.parseMoveRows tsRun recs).foldl
        (UpdateDb.stepRow hr tsRun runId (UpdateDb.orDefault opts.event_kind "move")
          (UpdateDb.orDefault opts.detail_source "apply_move_plan.ps1"))
        (UpdateDb.insertRunRow st runId (UpdateDb.orDefault opts.run_kind "apply") tsRun
           (UpdateDb.runNotes opts),
         { updated := 0, merged := 0, already := 0, missing := 0 }, [])).2.2).isEmpty
    · rw [if_pos hemp] at he
      have hlen : st.events.length = (((UpdateDb.parseMoveRows tsRun recs).foldl
          (UpdateDb.stepRow hr tsRun runId (UpdateDb.orDefault opts.event_kind "move")
            (UpdateDb.orDefault opts.detail_source "apply_move_plan.ps1"))
          (UpdateDb.insertRunRow st runId (UpdateDb.orDefault opts.run_kind "apply") tsRun
             (UpdateDb.runNotes opts),
           { updated := 0, merged := 0, already := 0, missing := 0 }, [])).1.events).length := by
        rw [h.2.2, hinit]
      rw [hlen, List.drop_length] at he
      simp at he
    · rw [if_neg hemp] at he
      have hlen : (((UpdateDb.parseMoveRows tsRun recs).foldl
          (UpdateDb.stepRow hr tsRun runId (UpdateDb.orDefault opts.event_kind "move")
            (UpdateDb.orDefault opts.detail_source "apply_move_plan.ps1"))
          (UpdateDb.insertRunRow st runId (UpdateDb.orDefault opts.run_kind "apply") tsRun
             (UpdateDb.runNotes opts),
           { updated := 0, merged := 0, already := 0, missing := 0 }, [])).1.events).length =
          st.events.length := by
        rw [h.2.2, hinit]
      rw [List.drop_left' hlen] at he
      rcases h.2.1 e he with h1 | h1
      · simp at h1
      · exact h1
  · intro hall
    have hnil := parseMoveRows_nil_of_not_ok tsRun recs hall
    simp [UpdateDb.applyRun, hnil, UpdateDb.finalizeRun, UpdateDb.insertRunRow]

/-- Witness for C1 amended: the no-mutation clause at an all-failed batch,
and the one-event-per-consumed-row count at a one-row batch. -/
theorem applyRun_event_per_consumed_outcome_witness :
    ((UpdateDb.applyRun hr0 "t1" "r1" opts0 store1 [recNoOk]).1.paths =
      store1.paths) ∧
    ((UpdateDb.applyRun hr0 "t1" "r1" opts0 store1 [recMv]).1.events.length =
      store1.events.length + (UpdateDb.parseMoveRows "t1" [recMv]).length) :=
  ⟨((applyRun_event_per_consumed_outcome hr0 "t1" "r1" opts0 store1 [recNoOk]).2.2.2
      (by decide)).1,
   (applyRun_event_per_consumed_outcome hr0 "t1" "r1" opts0 store1 [recMv]).1⟩

/- ===== C2 ===== -/

/-- C2 counterexample: re-applying a one-row artifact whose first application
was a simple update is not reported as already_applied — the second run
counts it as updated again and refreshes the row's updated_at field. -/
theorem rerun_counts_updated_not_already_applied :
    ((UpdateDb.applyRun hr0 "t2" "r2" opts0
        (UpdateDb.applyRun hr0 "t1" "r1" opts0 store1 [recMv]).1
        [recMv]).2.already_applied = 0) ∧
    ((UpdateDb.applyRun hr0 "t2" "r2" opts0
        (UpdateDb.applyRun hr0 "t1" "r1" opts0 store1 [recMv]).1
        [recMv]).2.updated = 1) ∧
    ((UpdateDb.applyRun hr0 "t2" "r2" opts0
        (UpdateDb.applyRun hr0 "t1" "r1" opts0 store1 [recMv]).1
        [recMv]).1.paths.map PathRow.updated_at = ["t2"]) ∧
    ((UpdateDb.applyRun hr0 "t1" "r1" opts0 store1 [recMv]).1.paths.map
        PathRow.updated_at = ["t1"]) := by
  decide

/-- C2 amended: on a re-run of an already-applied outcome, a row whose first
application merged the source id away is counted as already_applied with the
store untouched, while a row whose first application was a simple update is
re-executed and counted as updated (detail already_at_destination_path):
path, dir and name are rewritten with their identical stored values and only
updated_at is refreshed; no other table changes. -/
theorem stepRow_rerun_behavior (hr : String → Bool) (tsRun runId ek ds : String)
    (st : Store) (cnt : UpdateDb.Counters) (evs : List EventRow)
    (row : UpdateDb.MoveRow) :
    (∀ d, st.paths.find? (fun q => q.path_id == row.path_id) = none →
       st.paths.find? (fun q => q.path == row.dst) = some d →
       (UpdateDb.stepRow hr tsRun runId ek ds (st, cnt, evs) row).1 = st ∧
       (UpdateDb.stepRow hr tsRun runId ek ds (st, cnt, evs) row).2.1 =
         { cnt with already := cnt.already + 1 }) ∧
    (∀ p, (st.paths.map PathRow.path_id).Nodup →
       st.paths.find? (fun q => q.path_id == row.path_id) = some p →
       st.paths.find? (fun q => q.path == row.dst) = some p →
       p.path = row.dst → p.dir = some row.dir → p.name = some row.name →
       (UpdateDb.stepRow hr tsRun runId ek ds (st, cnt, evs) row).1.paths =
         st.paths.map (fun q =>
           if q.path_id == row.path_id then { q with updated_at := tsRun } else q) ∧
       (UpdateDb.stepRow hr tsRun runId ek ds (st, cnt, evs) row).2.1 =
         { cnt with updated := cnt.updated + 1 } ∧
       (UpdateDb.stepRow hr tsRun runId ek ds (st, cnt, evs) row).1.observations =
         st.observations ∧
       (UpdateDb.stepRow hr tsRun runId ek ds (st, cnt, evs) row).1.path_metadata =
         st.path_metadata ∧
       (UpdateDb.stepRow hr tsRun runId ek ds (st, cnt, evs) row).1.events =
         st.events) := by
  constructor
  · intro d h1 h2
    constructor <;> simp [UpdateDb.stepRow, UpdateDb.stepRowCore, h1, h2]
  · intro p hnd h1 h2 hpath hdir hname
    have hbeq : (p.path_id == row.path_id) = true := by
      have := List.find?_some h1
      simpa using this
    have hmem : p ∈ st.paths := List.mem_of_find?_eq_some h1
    refine ⟨?_, ?_, ?_, ?_, ?_⟩
    · simp only [UpdateDb.stepRow, UpdateDb.stepRowCore, h1, h2, hbeq, if_true]
      apply List.map_congr_left
      intro q hq
      by_cases hid : q.path_id = row.path_id
      · have hqp : q = p := by
          apply List.inj_on_of_nodup_map hnd hq hmem
          have := beq_iff_eq.mp hbeq
          rw [hid, this]
        subst hqp
        simp [hid, ← hpath, ← hdir, ← hname]
      · simp [hid]
    · simp [UpdateDb.stepRow, UpdateDb.stepRowCore, h1, h2, hbeq]
    · simp [UpdateDb.stepRow, UpdateDb.stepRowCore, h1, h2, hbeq]
    · simp [UpdateDb.stepRow, UpdateDb.stepRowCore, h1, h2, hbeq]
    · simp [UpdateDb.stepRow, UpdateDb.stepRowCore, h1, h2, hbeq]

/-- Witness for C2 amended: both re-run cases at concrete stores. -/
theorem stepRow_rerun_behavior_witness :
    ((UpdateDb.stepRow hr0 "t2" "r2" "move" "apply_move_plan.ps1"
        (store2, { updated := 0, merged := 0, already := 0, missing := 0 }, [])
        { path_id := "gone", src := some "C:\\a\\x.mp4", dst := "C:\\b\\x.mp4",
          dir := "C:\\b", name := "x.mp4", ts := "ts1" }).1 = store2) ∧
    ((UpdateDb.stepRow hr0 "t2" "r2" "move" "apply_move_plan.ps1"
        (store2, { updated := 0, merged := 0, already := 0, missing := 0 }, [])
        { path_id := "P2", src := some "C:\\a\\x.mp4", dst := "C:\\b\\x.mp4",
          dir := "C:\\b", name := "x.mp4", ts := "ts1" }).1.paths =
      store2.paths.map (fun q =>
        if q.path_id == "P2" then { q with updated_at := "t2" } else q)) :=
  ⟨((stepRow_rerun_behavior hr0 "t2" "r2" "move" "apply_move_plan.ps1" store2
      { updated := 0, merged := 0, already := 0, missing := 0 } []
      { path_id := "gone", src := some "C:\\a\\x.mp4", dst := "C:\\b\\x.mp4",
        dir := "C:\\b", name := "x.mp4", ts := "ts1" }).1 rowP2
      (by decide) (by decide)).1,
   ((stepRow_rerun_behavior hr0 "t2" "r2" "move" "apply_move_plan.ps1" store2
      { updated := 0, merged := 0, already := 0, missing := 0 } []
      { path_id := "P2", src := some "C:\\a\\x.mp4", dst := "C:\\b\\x.mp4",
        dir := "C:\\b", name := "x.mp4", ts := "ts1" }).2 rowP2
      (by decide) (by decide) (by decide) (by decide) (by decide) (by decide)).1⟩

/- ===== C4 ===== -/

/-- The loop body raises at the first faulted row: every row before it is
processed, the fault propagates as the error value. -/
theorem txGo_fault (hr : String → Bool) (tsRun runId ek ds : String)
    (faults : Nat → Bool) :
    ∀ (rows : List UpdateDb.MoveRow) (i k : Nat)
      (acc : Store × UpdateDb.Counters × List EventRow),
      i < rows.length → faults (k + i) = true → (∀ j, j < i → faults (k + j) = false) →
      UpdateDb.txGo hr tsRun runId ek ds faults k acc rows = .error (k + i) := by
  intro rows
  induction rows with
  | nil =>
    intro i k acc hi
    simp at hi
  | cons r rs ih =>
    intro i k acc hi hf hj
    by_cases h0 : i = 0
    · subst h0
      simp only [Nat.add_zero] at hf
      simp [UpdateDb.txGo, hf]
    · obtain ⟨i', rfl⟩ : ∃ i', i = i' + 1 :=
        ⟨i - 1, by omega⟩
      have hk0 : faults k = false := by
        have := hj 0 (by omega)
        simpa using this
      have hstep := ih i' (k + 1)
        (UpdateDb.stepRow hr tsRun runId ek ds acc r)
        (by simpa using Nat.lt_of_succ_lt_succ hi)
        (by rw [show k + 1 + i' = k + (i' + 1) by omega]; exact hf)
        (by
          intro j hjlt
          rw [show k + 1 + j = k + (j + 1) by omega]
          exact hj (j + 1) (by omega))
      rw [UpdateDb.txGo, if_neg (by simp [hk0]), hstep]
      congr 1
      omega

/-- C4: the apply batch is wrapped in a single transaction opened (with the
immediate/exclusive write lock of begin_immediate) before the first row is
processed; if an unhandled exception is raised while processing any row, the
whole batch is rolled back — the returned store is exactly the pre-batch
store, every earlier row's mutations included — and the error is propagated
to the caller rather than swallowed. -/
theorem applyRunTx_rolls_back_whole_batch (hr : String → Bool)
    (tsRun runId : String) (opts : UpdateDb.RunOpts) (faults : Nat → Bool)
    (st : Store) (recs : List UpdateDb.MoveRec) (i : Nat)
    (hi : i < (UpdateDb.parseMoveRows tsRun recs).length)
    (hf : faults i = true) (hprev : ∀ j, j < i → faults j = false) :
    UpdateDb.applyRunTx hr tsRun runId opts faults st recs =
      (st, some i,
       UpdateDb.TraceEv.beginTx ::
         ((List.range i).map UpdateDb.TraceEv.row ++ [UpdateDb.TraceEv.rollbackTx])) := by
  have h := txGo_fault hr tsRun runId
    (UpdateDb.orDefault opts.event_kind "move")
    (UpdateDb.orDefault opts.detail_source "apply_move_plan.ps1")
    faults (UpdateDb.parseMoveRows tsRun recs) i 0
    (UpdateDb.insertRunRow st runId (UpdateDb.orDefault opts.run_kind "apply") tsRun
       (UpdateDb.runNotes opts),
     { updated := 0, merged := 0, already := 0, missing := 0 }, [])
    hi (by simpa using hf) (by simpa using hprev)
  simp only [Nat.zero_add] at h
  simp only [UpdateDb.applyRunTx, h]

/-- Witness for C4: a two-row batch whose second row raises is rolled back to
the original store with the error propagated, even though the first row's
update had already mutated the paths table. -/
theorem applyRunTx_rolls_back_whole_batch_witness :
    UpdateDb.applyRunTx hr0 "t1" "r1" opts0 (fun n => n == 1) store1
        [recMv, recMv] =
      (store1, some 1,
       UpdateDb.TraceEv.beginTx ::
         ((List.range 1).map UpdateDb.TraceEv.row ++ [UpdateDb.TraceEv.rollbackTx])) ∧
    (UpdateDb.applyRun hr0 "t1" "r1" opts0 store1 [recMv, recMv]).1.paths ≠
      store1.paths :=
  ⟨applyRunTx_rolls_back_whole_batch hr0 "t1" "r1" opts0 (fun n => n == 1) store1
      [recMv, recMv] 1 (by decide) (by decide)
      (by
        intro j hj
        interval_cases j
        decide),
   by decide⟩

/- ===== C9 ===== -/

/-- The in-place rewrite the simple-update branch applies to an id-matching
paths row. -/
def simpleUpd (row : UpdateDb.MoveRow) (tsRun : String) (q : PathRow) : PathRow :=
  if q.path_id == row.path_id then
    { q with path := row.dst, dir := some row.dir, name := some row.name,
             updated_at := tsRun }
  else q

/-- C9: a move outcome handled as a simple update (source path_id present;
destination path absent or owned by the same id) rewrites only the path, dir,
name and updated_at fields of the id-matching Path row: path_id, created_at,
drive and ext keep their pre-move values (whatever the destination's drive or
extension), every other Path row is left unchanged, and no other table of the
store is touched by the outcome. -/
theorem stepRow_simple_update_frame (hr : String → Bool)
    (tsRun runId ek ds : String) (st : Store) (cnt : UpdateDb.Counters)
    (evs : List EventRow) (row : UpdateDb.MoveRow) (p : PathRow)
    (hsrc : st.paths.find? (fun q => q.path_id == row.path_id) = some p)
    (hdst : st.paths.find? (fun q => q.path == row.dst) = none ∨
            ∃ d, st.paths.find? (fun q => q.path == row.dst) = some d ∧
                 d.path_id = row.path_id) :
    (UpdateDb.stepRow hr tsRun runId ek ds (st, cnt, evs) row).1.paths =
      st.paths.map (simpleUpd row tsRun) ∧
    (∀ q : PathRow, (simpleUpd row tsRun q).path_id = q.path_id ∧
       (simpleUpd row tsRun q).created_at = q.created_at ∧
       (simpleUpd row tsRun q).drive = q.drive ∧
       (simpleUpd row tsRun q).ext = q.ext) ∧
    (∀ q : PathRow, q.path_id ≠ row.path_id → simpleUpd row tsRun q = q) ∧
    (UpdateDb.stepRow hr tsRun runId ek ds (st, cnt, evs) row).1.observations =
      st.observations ∧
    (UpdateDb.stepRow hr tsRun runId ek ds (st, cnt, evs) row).1.path_metadata =
      st.path_metadata ∧
    (UpdateDb.stepRow hr tsRun runId ek ds (st, cnt, evs) row).1.file_paths =
      st.file_paths ∧
    (UpdateDb.stepRow hr tsRun runId ek ds (st, cnt, evs) row).1.path_tags =
      st.path_tags ∧
    (UpdateDb.stepRow hr tsRun runId ek ds (st, cnt, evs) row).1.events =
      st.events ∧
    (UpdateDb.stepRow hr tsRun runId ek ds (st, cnt, evs) row).1.runs = st.runs := by
  have hupd : ∀ q : PathRow, (simpleUpd row tsRun q).path_id = q.path_id ∧
      (simpleUpd row tsRun q).created_at = q.created_at ∧
      (simpleUpd row tsRun q).drive = q.drive ∧
      (simpleUpd row tsRun q).ext = q.ext := by
    intro q
    by_cases h : q.path_id == row.path_id <;> simp [simpleUpd, h]
  have hfix : ∀ q : PathRow, q.path_id ≠ row.path_id → simpleUpd row tsRun q = q := by
    intro q h
    simp [simpleUpd, h]
  rcases hdst with hd | ⟨d, hd, hdp⟩
  · refine ⟨?_, hupd, hfix, ?_, ?_, ?_, ?_, ?_, ?_⟩ <;>
      simp [UpdateDb.stepRow, UpdateDb.stepRowCore, hsrc, hd, simpleUpd]
  · refine ⟨?_, hupd, hfix, ?_, ?_, ?_, ?_, ?_, ?_⟩ <;>
      simp [UpdateDb.stepRow, UpdateDb.stepRowCore, hsrc, hd, hdp, simpleUpd]

/-- Witness for C9: a concrete simple update to a different drive and
extension. -/
theorem stepRow_simple_update_frame_witness :
    (UpdateDb.stepRow hr0 "t1" "r1" "move" "apply_move_plan.ps1"
      (store1, { updated := 0, merged := 0, already := 0, missing := 0 }, [])
      { path_id := "P1", src := some "C:\\a\\x.mp4", dst := "E:\\b\\x.mkv",
        dir := "E:\\b", name := "x.mkv", ts := "ts1" }).1.paths =
      store1.paths.map (simpleUpd
        { path_id := "P1", src := some "C:\\a\\x.mp4", dst := "E:\\b\\x.mkv",
          dir := "E:\\b", name := "x.mkv", ts := "ts1" } "t1") :=
  (stepRow_simple_update_frame hr0 "t1" "r1" "move" "apply_move_plan.ps1" store1
    { updated := 0, merged := 0, already := 0, missing := 0 } []
    { path_id := "P1", src := some "C:\\a\\x.mp4", dst := "E:\\b\\x.mkv",
      dir := "E:\\b", name := "x.mkv", ts := "ts1" } rowP1
    (by decide) (Or.inl (by decide))).1

/- ===== C7 ===== -/

/-- One lex level is transitive given transitivity of the rest. -/
theorem lexB2_trans (x y z : Int) (rab rbc rac : Bool)
    (hr : rab = true → rbc = true → rac = true) :
    Dedup.lexB2 x y rab = true → Dedup.lexB2 y z rbc = true →
      Dedup.lexB2 x z rac = true := by
  unfold Dedup.lexB2
  intro hxy hyz
  by_cases h1 : x < y
  · by_cases h2 : y < z
    · rw [if_pos (by omega)]
    · by_cases h3 : z < y
      · rw [if_neg h2, if_pos h3] at hyz
        simp at hyz
      · rw [if_pos (by omega)]
  · by_cases h3 : y < x
    · rw [if_neg h1, if_pos h3] at hxy
      simp at hxy
    · by_cases h2 : y < z
      · rw [if_pos (by omega)]
      · by_cases h4 : z < y
        · rw [if_neg h2, if_pos h4] at hyz
          simp at hyz
        · rw [if_neg h1, if_neg h3] at hxy
          rw [if_neg h2, if_neg h4] at hyz
          rw [if_neg (by omega), if_neg (by omega)]
          exact hr hxy hyz

/-- One lex level is total given totality of the rest. -/
theorem lexB2_total (x y : Int) (rab rba : Bool) (hr : (rab || rba) = true) :
    (Dedup.lexB2 x y rab || Dedup.lexB2 y x rba) = true := by
  unfold Dedup.lexB2
  by_cases h1 : x < y
  · simp [h1]
  · by_cases h2 : y < x
    · simp [h1, h2]
    · simp [h1, h2, hr]

/-- Mutual lex-level le forces component equality and mutual rest-le. -/
theorem lexB2_eq_of_le_le (x y : Int) (rab rba : Bool)
    (h1 : Dedup.lexB2 x y rab = true) (h2 : Dedup.lexB2 y x rba = true) :
    x = y ∧ rab = true ∧ rba = true := by
  unfold Dedup.lexB2 at h1 h2
  by_cases ha : x < y
  · rw [if_neg (by omega), if_pos ha] at h2
    simp at h2
  · by_cases hb : y < x
    · rw [if_neg ha, if_pos hb] at h1
      simp at h1
    · have hxy : x = y := by omega
      rw [if_neg ha, if_neg hb] at h1
      rw [if_neg hb, if_neg ha] at h2
      exact ⟨hxy, h1, h2⟩

/-- A lex level carries non-strict into strict when the tie level does. -/
theorem lexB2_strict (x y : Int) (rle rlt : Bool)
    (h : Dedup.lexB2 x y rle = true) (hs : x = y → rle = true → rlt = true) :
    Dedup.lexB2 x y rlt = true := by
  unfold Dedup.lexB2 at h ⊢
  by_cases h1 : x < y
  · simp [h1]
  · by_cases h2 : y < x
    · rw [if_neg h1, if_pos h2] at h
      simp at h
    · have hxy : x = y := by omega
      rw [if_neg h1, if_neg h2] at h ⊢
      exact hs hxy h

/-- Python string le is transitive. -/
theorem strLeB_trans (a b c : String) (h1 : strLtb b a = false)
    (h2 : strLtb c b = false) : strLtb c a = false := by
  by_cases h3 : strLtb c a = true
  · by_cases h4 : strLtb b c = true
    · have hba := strLtb_trans b c a h4 h3
      simp [hba] at h1
    · have hbc : b = c := strLtb_conn b c (by simpa using h4) h2
      rw [← hbc] at h3
      simp [h3] at h1
  · simpa using h3

/-- keyLe is reflexive. -/
theorem keyLe_refl (a : Dedup.Candidate) : Dedup.keyLe a a = true := by
  unfold Dedup.keyLe Dedup.lexB2
  simp [strLtb, charsLt_irrefl]

/-- keyLe is transitive. -/
theorem keyLe_trans (a b c : Dedup.Candidate) (h1 : Dedup.keyLe a b = true)
    (h2 : Dedup.keyLe b c = true) : Dedup.keyLe a c = true := by
  unfold Dedup.keyLe at h1 h2 ⊢
  refine lexB2_trans _ _ _ _ _ _ ?_ h1 h2
  intro g1 g2
  refine lexB2_trans _ _ _ _ _ _ ?_ g1 g2
  intro f1 f2
  refine lexB2_trans _ _ _ _ _ _ ?_ f1 f2
  intro e1 e2
  refine lexB2_trans _ _ _ _ _ _ ?_ e1 e2
  intro d1 d2
  have := strLeB_trans _ _ _ (by simpa using d1) (by simpa using d2)
  simpa using this

/-- keyLe is total. -/
theorem keyLe_total (a b : Dedup.Candidate) :
    (Dedup.keyLe a b || Dedup.keyLe b a) = true := by
  unfold Dedup.keyLe
  refine lexB2_total _ _ _ _ (lexB2_total _ _ _ _ (lexB2_total _ _ _ _
    (lexB2_total _ _ _ _ ?_)))
  by_cases h : strLtb a.path b.path = true
  · have := strLtb_asymm _ _ h
    simp [this]
  · simp [h]

/-- Mutually keyLe candidates share a path string. -/
theorem keyLe_antisymm_path (a b : Dedup.Candidate)
    (h1 : Dedup.keyLe a b = true) (h2 : Dedup.keyLe b a = true) :
    a.path = b.path := by
  unfold Dedup.keyLe at h1 h2
  obtain ⟨_, h1', h2'⟩ := lexB2_eq_of_le_le _ _ _ _ h1 h2
  obtain ⟨_, h1'', h2''⟩ := lexB2_eq_of_le_le _ _ _ _ h1' h2'
  obtain ⟨_, g1, g2⟩ := lexB2_eq_of_le_le _ _ _ _ h1'' h2''
  obtain ⟨_, s1, s2⟩ := lexB2_eq_of_le_le _ _ _ _ g1 g2
  exact strLtb_conn a.path b.path (by simpa using s2) (by simpa using s1)

/-- keyLe plus distinct paths is strict keyLt. -/
theorem keyLt_of_le (a b : Dedup.Candidate) (h : Dedup.keyLe a b = true)
    (hp : a.path ≠ b.path) : Dedup.keyLt a b = true := by
  unfold Dedup.keyLe at h
  unfold Dedup.keyLt
  refine lexB2_strict _ _ _ _ h ?_
  intro _ h2
  refine lexB2_strict _ _ _ _ h2 ?_
  intro _ h3
  refine lexB2_strict _ _ _ _ h3 ?_
  intro _ h4
  refine lexB2_strict _ _ _ _ h4 ?_
  intro _ h5
  by_cases h6 : strLtb a.path b.path = true
  · exact h6
  · exact absurd (strLtb_conn a.path b.path (by simpa using h6) (by simpa using h5)) hp

/-- C7: on a non-empty cohort with pairwise-distinct path strings,
choose_keep returns the unique candidate that is first under the strict
priority order (not_corrupt true first, then resolution_score, size_bytes
and mtime descending, then path ascending), and the result is invariant
under any permutation of the input list. -/
theorem choose_keep_total_order (l l' : List Dedup.Candidate) (hne : l ≠ [])
    (hdist : l.Pairwise (fun a b => a.path ≠ b.path)) (hperm : l.Perm l') :
    ∃ c, Dedup.choose_keep l = some c ∧ c ∈ l ∧
      (∀ d ∈ l, d ≠ c → Dedup.keyLt c d = true) ∧
      Dedup.choose_keep l' = Dedup.choose_keep l := by
  have hsymm : Symmetric fun a b : Dedup.Candidate => a.path ≠ b.path :=
    fun _ _ h => Ne.symm h
  have hpairs : ∀ x ∈ l, ∀ y ∈ l, x ≠ y → x.path ≠ y.path :=
    fun x hx y hy hxy => List.Pairwise.forall hsymm hdist hx hy hxy
  have htrans := fun a b c => keyLe_trans a b c
  have htotal := keyLe_total
  have hms := List.mergeSort_perm l Dedup.keyLe
  obtain ⟨c, rest, hcons⟩ : ∃ c rest, l.mergeSort Dedup.keyLe = c :: rest := by
    cases hh : l.mergeSort Dedup.keyLe with
    | nil =>
      exfalso
      apply hne
      have := hms
      rw [hh] at this
      exact (this.symm).eq_nil
    | cons c rest => exact ⟨c, rest, rfl⟩
  have hsorted := List.sorted_mergeSort htrans htotal l
  rw [hcons] at hsorted
  have hmin : ∀ d ∈ l, Dedup.keyLe c d = true := by
    intro d hd
    have hd' : d ∈ c :: rest := by
      rw [← hcons]
      exact hms.mem_iff.mpr hd
    rcases List.mem_cons.mp hd' with rfl | hdrest
    · exact keyLe_refl d
    · exact List.rel_of_pairwise_cons hsorted hdrest
  have hcmem : c ∈ l := hms.mem_iff.mp (by rw [hcons]; exact List.mem_cons_self c rest)
  have hck : Dedup.choose_keep l = some c := by
    rw [Dedup.choose_keep, hcons]
    rfl
  refine ⟨c, hck, hcmem, ?_, ?_⟩
  · intro d hd hdc
    exact keyLt_of_le c d (hmin d hd) (hpairs c hcmem d hd (Ne.symm hdc))
  · have hne' : l' ≠ [] := by
      intro h
      apply hne
      rw [h] at hperm
      exact hperm.eq_nil
    have hms' := List.mergeSort_perm l' Dedup.keyLe
    obtain ⟨c', rest', hcons'⟩ : ∃ c' rest', l'.mergeSort Dedup.keyLe = c' :: rest' := by
      cases hh : l'.mergeSort Dedup.keyLe with
      | nil =>
        exfalso
        apply hne'
        have := hms'
        rw [hh] at this
        exact (this.symm).eq_nil
      | cons c' rest' => exact ⟨c', rest', rfl⟩
    have hsorted' := List.sorted_mergeSort htrans htotal l'
    rw [hcons'] at hsorted'
    have hmin' : ∀ d ∈ l', Dedup.keyLe c' d = true := by
      intro d hd
      have hd' : d ∈ c' :: rest' := by
        rw [← hcons']
        exact hms'.mem_iff.mpr hd
      rcases List.mem_cons.mp hd' with rfl | hdrest
      · exact keyLe_refl d
      · exact List.rel_of_pairwise_cons hsorted' hdrest
    have hcmem' : c' ∈ l := hperm.mem_iff.mpr
      (hms'.mem_iff.mp (by rw [hcons']; exact List.mem_cons_self c' rest'))
    have hle1 : Dedup.keyLe c c' = true := hmin c' hcmem'
    have hle2 : Dedup.keyLe c' c = true := hmin' c (hperm.mem_iff.mp hcmem)
    have hcc : c = c' := by
      by_cases h : c = c'
      · exact h
      · exact absurd (keyLe_antisymm_path c c' hle1 hle2) (hpairs c hcmem c' hcmem' h)
    have hck' : Dedup.choose_keep l' = some c' := by
      rw [Dedup.choose_keep, hcons']
      rfl
    rw [hck, hck', hcc]

/-- A low-resolution candidate at path pa. -/
def cA : Dedup.Candidate :=
  { path_id := "A", path := "D:\\rec\\a.mp4", group_key := "show|ep1",
    confidence := 9, needs_review := false, program_title := "show",
    air_date := some "2024-01-02", episode_no := some "1", subtitle := none,
    bucket := "terrestrial", bucket_reason := "keyword:mx", size_bytes := 100,
    mtime_ts := 5, resolution_score := 1000, not_corrupt := 1, raw_meta := [] }

/-- A higher-resolution candidate at path pb. -/
def cB : Dedup.Candidate :=
  { path_id := "B", path := "D:\\rec\\b.mp4", group_key := "show|ep1",
    confidence := 9, needs_review := false, program_title := "show",
    air_date := some "2024-01-02", episode_no := some "1", subtitle := none,
    bucket := "terrestrial", bucket_reason := "keyword:mx", size_bytes := 90,
    mtime_ts := 4, resolution_score := 2000, not_corrupt := 1, raw_meta := [] }

/-- Witness for C7: choose_keep is invariant under swapping a concrete
two-candidate cohort. -/
theorem choose_keep_total_order_witness :
    Dedup.choose_keep [cA, cB] = Dedup.choose_keep [cB, cA] := by
  obtain ⟨c, _, _, _, h4⟩ := choose_keep_total_order [cB, cA] [cA, cB]
    (by decide) (by decide) (by decide)
  exact h4
